import Mathlib

/-!
Verification development for the request-evaluation / type-checking subsystem
of the Swift frontend excerpt (Sema + AST request layer).

Each section embeds one region of the C++ source as Lean definitions:

* `ConstraintLocator` simplification (`simplifyLocator` is not part of the
  excerpt, only its callers; it is modelled from the specification).
* `ConstraintFix` variants and their `diagnose` delegation (CSFix.h/CSFix.cpp).
* The demand-driven `Evaluator` with caching, statistics and cycle detection
  (modelled from the specification; only the request declarations are in the
  excerpt).
* `checkCircularity`, `checkInheritanceClause`, `checkEnumRawValues` and
  `checkRedeclaration` from lib/Sema/TypeCheckDecl.cpp.

AST entities (types, declarations, names, source ranges) are represented by
opaque identifiers (`Nat`); collections by lists.  Diagnostics are modelled as
values carrying the same arguments the C++ code passes to the diagnostic
engine.
-/

namespace Swift

/-! ## Constraint locators (CSDiagnostics.cpp / ConstraintLocator)

An expression tree with identified nodes.  A locator addresses a sub-position
of an anchor expression through a path; path elements are modelled as child
indices ("argument N of call", "generic parameter K", ...).  A synthetic path
element that does not correspond to a sub-expression is an out-of-range index.
-/

inductive MExpr where
  | mk (id : Nat) (children : List MExpr)

def MExpr.children : MExpr → List MExpr
  | .mk _ cs => cs

def MExpr.ident : MExpr → Nat
  | .mk i _ => i

structure Locator where
  anchor : MExpr
  path : List Nat

/-- Resolve a whole locator path to the sub-expression it addresses,
stepping into one child per path element; `none` when some element does not
address a sub-expression. -/
def resolvePath : MExpr → List Nat → Option MExpr
  | e, [] => some e
  | e, i :: rest =>
    match e.children.get? i with
    | some c => resolvePath c rest
    | none => none

/-- Modelled from the spec: `simplifyLocator` (the body is not in the
excerpt; CSDiagnostics.cpp and CSFix.cpp only call it).  Per §3 and §4.5 of
the specification, simplification walks path elements outward until reaching
a stable anchor, is deterministic, and must not change the anchor unless the
path becomes empty.  Accordingly: when the whole path resolves to a
sub-expression the locator is replaced by that sub-expression with an empty
path; otherwise the locator is returned unchanged. -/
def simplifyLocator (loc : Locator) : Locator :=
  match resolvePath loc.anchor loc.path with
  | some e => ⟨e, []⟩
  | none => loc

/-- `ConstraintSystem::getConstraintLocator(Expr *)`: a locator whose anchor
is the given expression and whose path is empty. -/
def getConstraintLocator (e : MExpr) : Locator := ⟨e, []⟩

/-- Modelled from the spec: `simplifyLocatorToAnchor` (body not in the
excerpt; used by `ForceOptional::create` in CSFix.cpp).  It yields the anchor
expression of the simplified locator. -/
def simplifyLocatorToAnchor (loc : Locator) : MExpr :=
  (simplifyLocator loc).anchor

/-! ## `ForceOptional` (CSFix.h lines 247-269, CSFix.cpp lines 68-81)

The fix stores the anchor-simplified locator as its primary locator (the one
`ConstraintFix::getLocator`/`getAnchor` expose) and retains the original full
locator separately; `diagnose` hands the full locator to
`MissingOptionalUnwrapFailure`. -/

structure ForceOptionalFix where
  baseType : Nat
  unwrappedType : Nat
  locator : Locator
  fullLocator : Locator

def ForceOptionalFix.create (baseType unwrappedType : Nat) (locator : Locator) :
    ForceOptionalFix :=
  { baseType := baseType
    unwrappedType := unwrappedType
    locator := getConstraintLocator (simplifyLocatorToAnchor locator)
    fullLocator := locator }

/-- `ConstraintFix::getLocator` for a `ForceOptional` fix: the primary
(simplified) locator. -/
def ForceOptionalFix.getLocator (f : ForceOptionalFix) : Locator := f.locator

/-- `ConstraintFix::getAnchor`: the primary locator's anchor, taken directly
from the locator without further simplification. -/
def ForceOptionalFix.getAnchor (f : ForceOptionalFix) : MExpr := f.locator.anchor

/-! ## Constraint fixes (CSFix.h)

One constructor per concrete `ConstraintFix` subclass, carrying the fields the
C++ class stores (types, declarations, names and source ranges as opaque
`Nat` identifiers).  `UnwrapOptionalBase` covers both of its `FixKind`s via a
flag, mirroring the C++ class. -/

inductive InitRefKind where
  | dynamicOnMetatype
  | protocolMetatype
  | nonConstMetatype
deriving DecidableEq

inductive KeyPathRefKind where
  | staticMember
  | mutatingGetter
  | method
deriving DecidableEq

inductive ConstraintFix where
  | forceDowncast (downcastTo : Nat) (locator : Locator)
  | forceOptional (f : ForceOptionalFix)
  | unwrapOptionalBase (withOptionalResult : Bool) (memberName : Nat) (locator : Locator)
  | addAddressOf (locator : Locator)
  | treatRValueAsLValue (locator : Locator)
  | coerceToCheckedCast (locator : Locator)
  | markExplicitlyEscaping (convertTo : Nat) (locator : Locator)
  | relabelArguments (labels : List Nat) (locator : Locator)
  | missingConformance (isContextual : Bool) (nonConformingType protocolType : Nat)
      (locator : Locator)
  | skipSameTypeRequirement (lhs rhs : Nat) (locator : Locator)
  | skipSuperclassRequirement (lhs rhs : Nat) (locator : Locator)
  | contextualMismatch (lhs rhs : Nat) (locator : Locator)
  | keyPathContextualMismatch (lhs rhs : Nat) (locator : Locator)
  | genericArgumentsMismatch (actual required : Nat) (mismatches : List Nat)
      (locator : Locator)
  | autoClosureForwarding (locator : Locator)
  | removeUnwrap (baseType : Nat) (locator : Locator)
  | insertExplicitCall (locator : Locator)
  | usePropertyWrapper (wrapped : Nat) (usingStorageWrapper : Bool) (base wrapper : Nat)
      (locator : Locator)
  | useWrappedValue (propertyWrapper : Nat) (wrapperNameHasUnderscore : Bool)
      (base wrapper : Nat) (locator : Locator)
  | useSubscriptOperator (locator : Locator)
  | defineMemberBasedOnUse (baseType name : Nat) (locator : Locator)
  | allowMemberRefOnExistential (baseType member name : Nat) (locator : Locator)
  | allowTypeOrInstanceMember (baseType member name : Nat) (locator : Locator)
  | allowInvalidPartialApplication (isWarning : Bool) (locator : Locator)
  | allowInvalidInitRef (kind : InitRefKind) (baseType init : Nat)
      (isStaticallyDerived : Bool) (baseRange : Nat) (locator : Locator)
  | allowMutatingMemberOnRValueBase (baseType member name : Nat) (locator : Locator)
  | allowClosureParamDestructuring (contextualType : Nat) (locator : Locator)
  | addMissingArguments (fn : Nat) (synthesizedArgs : List Nat) (locator : Locator)
  | moveOutOfOrderArgument (argIdx prevArgIdx : Nat) (bindings : List (List Nat))
      (locator : Locator)
  | allowInaccessibleMember (baseType member name : Nat) (locator : Locator)
  | allowAnyObjectKeyPathRoot (locator : Locator)
  | treatKeyPathSubscriptIndexAsHashable (nonConformingType : Nat) (locator : Locator)
  | allowInvalidRefInKeyPath (kind : KeyPathRefKind) (member : Nat) (locator : Locator)
  | removeAddressOf (locator : Locator)
  | removeReturn (locator : Locator)
  | collectionElementContextualMismatch (srcType dstType : Nat) (locator : Locator)
  | explicitlySpecifyGenericArguments (params : List Nat) (locator : Locator)
  | skipUnhandledConstructInFunctionBuilder (unhandled builder : Nat) (locator : Locator)

/-! ## Failure diagnostics (CSDiagnostics.h constructors as used in CSFix.cpp)

One constructor per `FailureDiagnostic` subclass that some fix's `diagnose`
constructs, with the argument list the corresponding construction site in
CSFix.cpp passes (the `ConstraintSystem &` argument is represented by the
contextual-purpose value where the diagnostic reads it). -/

inductive FailureDiag where
  | missingExplicitConversion (root : MExpr) (locator : Locator) (downcastTo : Nat)
  | missingOptionalUnwrap (root : MExpr) (baseType unwrappedType : Nat) (locator : Locator)
  | memberAccessOnOptionalBase (root : MExpr) (locator : Locator) (memberName : Nat)
      (resultIsOptional : Bool)
  | missingAddressOf (root : MExpr) (locator : Locator)
  | rvalueTreatedAsLValue (locator : Locator)
  | missingForcedDowncast (root : MExpr) (locator : Locator)
  | noEscapeFuncToTypeConversion (root : MExpr) (locator : Locator) (convertTo : Nat)
  | labeling (root : MExpr) (locator : Locator) (labels : List Nat)
  | missingContextualConformance (root : MExpr) (context : Nat)
      (nonConformingType protocolType : Nat) (locator : Locator)
  | missingConformanceD (root : MExpr) (locator : Locator) (conformance : Nat × Nat)
  | sameTypeRequirement (root : MExpr) (lhs rhs : Nat) (locator : Locator)
  | superclassRequirement (root : MExpr) (lhs rhs : Nat) (locator : Locator)
  | contextualFailure (root : MExpr) (fromType toType : Nat) (locator : Locator)
  | genericArgumentsMismatchD (root : MExpr) (actual required : Nat)
      (mismatches : List Nat) (locator : Locator)
  | autoClosureForwardingD (locator : Locator)
  | nonOptionalUnwrap (root : MExpr) (baseType : Nat) (locator : Locator)
  | missingCall (root : MExpr) (locator : Locator)
  | extraneousPropertyWrapperUnwrap (root : MExpr) (wrapped : Nat)
      (usingStorageWrapper : Bool) (base wrapper : Nat) (locator : Locator)
  | missingPropertyWrapperUnwrap (root : MExpr) (propertyWrapper : Nat)
      (usingStorageWrapper : Bool) (base wrapper : Nat) (locator : Locator)
  | subscriptMisuse (root : MExpr) (locator : Locator)
  | missingMember (root : MExpr) (baseType name : Nat) (locator : Locator)
  | invalidMemberRefOnExistential (root : MExpr) (baseType name : Nat) (locator : Locator)
  | allowTypeOrInstanceMemberD (root : MExpr) (baseType member name : Nat)
      (locator : Locator)
  | partialApplication (root : MExpr) (isWarning : Bool) (locator : Locator)
  | invalidDynamicInitOnMetatype (root : MExpr) (baseType init baseRange : Nat)
      (locator : Locator)
  | initOnProtocolMetatype (root : MExpr) (baseType init : Nat)
      (isStaticallyDerived : Bool) (baseRange : Nat) (locator : Locator)
  | implicitInitOnNonConstMetatype (root : MExpr) (baseType init : Nat)
      (locator : Locator)
  | closureParamDestructuring (root : MExpr) (contextualType : Nat) (locator : Locator)
  | missingArguments (root : MExpr) (fn numSynthesized : Nat) (locator : Locator)
  | outOfOrderArgument (root : MExpr) (argIdx prevArgIdx : Nat)
      (bindings : List (List Nat)) (locator : Locator)
  | inaccessibleMember (root : MExpr) (member : Nat) (locator : Locator)
  | anyObjectKeyPathRoot (root : MExpr) (locator : Locator)
  | keyPathSubscriptIndexHashable (root : MExpr) (nonConformingType : Nat)
      (locator : Locator)
  | invalidStaticMemberRefInKeyPath (root : MExpr) (member : Nat) (locator : Locator)
  | invalidMemberWithMutatingGetterInKeyPath (root : MExpr) (member : Nat)
      (locator : Locator)
  | invalidMethodRefInKeyPath (root : MExpr) (member : Nat) (locator : Locator)
  | invalidUseOfAddressOf (root : MExpr) (locator : Locator)
  | extraneousReturn (root : MExpr) (locator : Locator)
  | collectionElementContextual (root : MExpr) (fromType toType : Nat) (locator : Locator)
  | missingGenericArguments (root : MExpr) (params : List Nat) (locator : Locator)
  | skipUnhandledConstructInFunctionBuilderD (root : MExpr) (unhandled builder : Nat)
      (locator : Locator)
  | mutatingMemberRefOnImmutableBase (root : MExpr) (member : Nat) (locator : Locator)

/-- `ConstraintFix::diagnose` (CSFix.cpp): every fix constructs exactly one
failure-diagnostic object from its stored fields (plus the root expression the
caller passes and, for `MissingConformance`, the constraint system's contextual
purpose) and delegates to it.  `KeyPathContextualMismatch` does not override
`diagnose`; it inherits `ContextualMismatch::diagnose`. -/
def fixDiagnose (contextualPurpose : Nat) (f : ConstraintFix) (root : MExpr) :
    FailureDiag :=
  match f with
  | .forceDowncast downcastTo locator => .missingExplicitConversion root locator downcastTo
  | .forceOptional f =>
    .missingOptionalUnwrap root f.baseType f.unwrappedType f.fullLocator
  | .unwrapOptionalBase withOptionalResult memberName locator =>
    .memberAccessOnOptionalBase root locator memberName withOptionalResult
  | .addAddressOf locator => .missingAddressOf root locator
  | .treatRValueAsLValue locator => .rvalueTreatedAsLValue locator
  | .coerceToCheckedCast locator => .missingForcedDowncast root locator
  | .markExplicitlyEscaping convertTo locator =>
    .noEscapeFuncToTypeConversion root locator convertTo
  | .relabelArguments labels locator => .labeling root locator labels
  | .missingConformance isContextual nonConformingType protocolType locator =>
    if isContextual then
      .missingContextualConformance root contextualPurpose nonConformingType
        protocolType locator
    else
      .missingConformanceD root locator (nonConformingType, protocolType)
  | .skipSameTypeRequirement lhs rhs locator => .sameTypeRequirement root lhs rhs locator
  | .skipSuperclassRequirement lhs rhs locator =>
    .superclassRequirement root lhs rhs locator
  | .contextualMismatch lhs rhs locator => .contextualFailure root lhs rhs locator
  | .keyPathContextualMismatch lhs rhs locator => .contextualFailure root lhs rhs locator
  | .genericArgumentsMismatch actual required mismatches locator =>
    .genericArgumentsMismatchD root actual required mismatches locator
  | .autoClosureForwarding locator => .autoClosureForwardingD locator
  | .removeUnwrap baseType locator => .nonOptionalUnwrap root baseType locator
  | .insertExplicitCall locator => .missingCall root locator
  | .usePropertyWrapper wrapped usingStorageWrapper base wrapper locator =>
    .extraneousPropertyWrapperUnwrap root wrapped usingStorageWrapper base wrapper locator
  | .useWrappedValue propertyWrapper wrapperNameHasUnderscore base wrapper locator =>
    .missingPropertyWrapperUnwrap root propertyWrapper (!wrapperNameHasUnderscore)
      base wrapper locator
  | .useSubscriptOperator locator => .subscriptMisuse root locator
  | .defineMemberBasedOnUse baseType name locator =>
    .missingMember root baseType name locator
  | .allowMemberRefOnExistential baseType _member name locator =>
    .invalidMemberRefOnExistential root baseType name locator
  | .allowTypeOrInstanceMember baseType member name locator =>
    .allowTypeOrInstanceMemberD root baseType member name locator
  | .allowInvalidPartialApplication isWarning locator =>
    .partialApplication root isWarning locator
  | .allowInvalidInitRef kind baseType init isStaticallyDerived baseRange locator =>
    match kind with
    | .dynamicOnMetatype =>
      .invalidDynamicInitOnMetatype root baseType init baseRange locator
    | .protocolMetatype =>
      .initOnProtocolMetatype root baseType init isStaticallyDerived baseRange locator
    | .nonConstMetatype => .implicitInitOnNonConstMetatype root baseType init locator
  | .allowMutatingMemberOnRValueBase _baseType member _name locator =>
    .mutatingMemberRefOnImmutableBase root member locator
  | .allowClosureParamDestructuring contextualType locator =>
    .closureParamDestructuring root contextualType locator
  | .addMissingArguments fn synthesizedArgs locator =>
    .missingArguments root fn synthesizedArgs.length locator
  | .moveOutOfOrderArgument argIdx prevArgIdx bindings locator =>
    .outOfOrderArgument root argIdx prevArgIdx bindings locator
  | .allowInaccessibleMember _baseType member _name locator =>
    .inaccessibleMember root member locator
  | .allowAnyObjectKeyPathRoot locator => .anyObjectKeyPathRoot root locator
  | .treatKeyPathSubscriptIndexAsHashable nonConformingType locator =>
    .keyPathSubscriptIndexHashable root nonConformingType locator
  | .allowInvalidRefInKeyPath kind member locator =>
    match kind with
    | .staticMember => .invalidStaticMemberRefInKeyPath root member locator
    | .mutatingGetter => .invalidMemberWithMutatingGetterInKeyPath root member locator
    | .method => .invalidMethodRefInKeyPath root member locator
  | .removeAddressOf locator => .invalidUseOfAddressOf root locator
  | .removeReturn locator => .extraneousReturn root locator
  | .collectionElementContextualMismatch srcType dstType locator =>
    .collectionElementContextual root srcType dstType locator
  | .explicitlySpecifyGenericArguments params locator =>
    .missingGenericArguments root params locator
  | .skipUnhandledConstructInFunctionBuilder unhandled builder locator =>
    .skipUnhandledConstructInFunctionBuilderD root unhandled builder locator

/-- Discriminant of a failure diagnostic: which `FailureDiagnostic` variant it
is, ignoring its fields. -/
def diagVariant : FailureDiag → Nat
  | .missingExplicitConversion .. => 0
  | .missingOptionalUnwrap .. => 1
  | .memberAccessOnOptionalBase .. => 2
  | .missingAddressOf .. => 3
  | .rvalueTreatedAsLValue .. => 4
  | .missingForcedDowncast .. => 5
  | .noEscapeFuncToTypeConversion .. => 6
  | .labeling .. => 7
  | .missingContextualConformance .. => 8
  | .missingConformanceD .. => 9
  | .sameTypeRequirement .. => 10
  | .superclassRequirement .. => 11
  | .contextualFailure .. => 12
  | .genericArgumentsMismatchD .. => 13
  | .autoClosureForwardingD .. => 14
  | .nonOptionalUnwrap .. => 15
  | .missingCall .. => 16
  | .extraneousPropertyWrapperUnwrap .. => 17
  | .missingPropertyWrapperUnwrap .. => 18
  | .subscriptMisuse .. => 19
  | .missingMember .. => 20
  | .invalidMemberRefOnExistential .. => 21
  | .allowTypeOrInstanceMemberD .. => 22
  | .partialApplication .. => 23
  | .invalidDynamicInitOnMetatype .. => 24
  | .initOnProtocolMetatype .. => 25
  | .implicitInitOnNonConstMetatype .. => 26
  | .closureParamDestructuring .. => 27
  | .missingArguments .. => 28
  | .outOfOrderArgument .. => 29
  | .inaccessibleMember .. => 30
  | .anyObjectKeyPathRoot .. => 31
  | .keyPathSubscriptIndexHashable .. => 32
  | .invalidStaticMemberRefInKeyPath .. => 33
  | .invalidMemberWithMutatingGetterInKeyPath .. => 34
  | .invalidMethodRefInKeyPath .. => 35
  | .invalidUseOfAddressOf .. => 36
  | .extraneousReturn .. => 37
  | .collectionElementContextual .. => 38
  | .missingGenericArguments .. => 39
  | .skipUnhandledConstructInFunctionBuilderD .. => 40
  | .mutatingMemberRefOnImmutableBase .. => 41

/-! ## The request Evaluator

Modelled from the spec: the `Evaluator` engine (include/swift/AST/Evaluator.h
is not part of the excerpt; the excerpt holds only the request declarations in
TypeCheckRequests.h / NameLookupRequests.h and `reportEvaluatedRequest`).
The model follows §4.2 of the specification:

1. if the request declares caching and a cached value exists (evaluator table
   for `Cached`, the request's own storage — modelled as a side table — for
   `SeparatelyCached`), return it immediately, with no re-execution and no
   statistics count;
2. otherwise, if the request is already on the active stack this is a cycle:
   `diagnoseCycle` on the request closing the loop, `noteCycleStep` on every
   frame between the original occurrence and the top, then return the
   request's `breakCycle()` value if provided, else propagate a cycle error;
3. otherwise push the request, execute its `evaluate` body (which evaluates
   its dependencies through the same engine) and count the execution in the
   statistics table keyed by request kind;
4. pop the request and, on success, store the result per caching policy.

Requests are identified by `Nat` (structural equality of the kind/input tuple
is equality of identifiers); a program supplies per request its statistics
kind, caching policy, dependency requests, result computation and optional
`breakCycle` value.  Recursion is bounded by explicit fuel (the cycle check
fires before fuel is consulted, so cycle behaviour is fuel-independent). -/

inductive CacheKind where
  | uncached
  | cached
  | separatelyCached
deriving DecidableEq

structure EvalProgram where
  kindName : Nat → Nat
  cacheKind : Nat → CacheKind
  deps : Nat → List Nat
  compute : Nat → List Nat → Nat
  breakCycleVal : Nat → Option Nat

inductive EvEvent where
  | executed (r : Nat)
  | diagnosedCycle (r : Nat)
  | notedCycleStep (r : Nat)
deriving DecidableEq

inductive EvalErr where
  | cycle
  | fuelOut
deriving DecidableEq

structure EvalState where
  cache : List (Nat × Nat)
  sideTable : List (Nat × Nat)
  stack : List Nat
  stats : Nat → Nat
  log : List EvEvent

/-- The evaluator's fresh (session-start) state. -/
def evalInit : EvalState :=
  { cache := [], sideTable := [], stack := [], stats := fun _ => 0, log := [] }

def lookupTable (r : Nat) : List (Nat × Nat) → Option Nat
  | [] => none
  | (r', v) :: rest => if r' = r then some v else lookupTable r rest

/-- Step 1: cached-value lookup per the request's caching policy. -/
def cachedValue (p : EvalProgram) (st : EvalState) (r : Nat) : Option Nat :=
  match p.cacheKind r with
  | .uncached => none
  | .cached => lookupTable r st.cache
  | .separatelyCached => lookupTable r st.sideTable

/-- Step 4: store a successful result per the request's caching policy. -/
def storeCache (p : EvalProgram) (r v : Nat) (st : EvalState) : EvalState :=
  match p.cacheKind r with
  | .uncached => st
  | .cached => { st with cache := (r, v) :: st.cache }
  | .separatelyCached => { st with sideTable := (r, v) :: st.sideTable }

/-- Cycle events: `diagnoseCycle` on the re-entered request, then
`noteCycleStep` on every frame between the original occurrence and the top of
the active stack (innermost first). -/
def cycleEvents (r : Nat) (stack : List Nat) : List EvEvent :=
  .diagnosedCycle r :: (stack.takeWhile (fun x => x ≠ r)).map .notedCycleStep

mutual

def evaluate (p : EvalProgram) (fuel : Nat) (st : EvalState) (r : Nat) :
    Except EvalErr Nat × EvalState :=
  match cachedValue p st r with
  | some v => (.ok v, st)
  | none =>
    if r ∈ st.stack then
      let st' := { st with log := st.log ++ cycleEvents r st.stack }
      match p.breakCycleVal r with
      | some v => (.ok v, st')
      | none => (.error .cycle, st')
    else
      match fuel with
      | 0 => (.error .fuelOut, st)
      | fuel' + 1 =>
        let st1 : EvalState :=
          { st with
            stack := r :: st.stack
            stats := fun k => if k = p.kindName r then st.stats k + 1 else st.stats k
            log := st.log ++ [.executed r] }
        match evalDeps p fuel' st1 (p.deps r) with
        | (.error e, st2) => (.error e, { st2 with stack := st2.stack.tail })
        | (.ok vs, st2) =>
          let v := p.compute r vs
          (.ok v, storeCache p r v { st2 with stack := st2.stack.tail })
termination_by (fuel, 0, 0)

def evalDeps (p : EvalProgram) (fuel : Nat) (st : EvalState) (rs : List Nat) :
    Except EvalErr (List Nat) × EvalState :=
  match rs with
  | [] => (.ok [], st)
  | r :: rest =>
    match evaluate p fuel st r with
    | (.error e, st') => (.error e, st')
    | (.ok v, st') =>
      match evalDeps p fuel st' rest with
      | (.error e, st'') => (.error e, st'')
      | (.ok vs, st'') => (.ok (v :: vs), st'')
termination_by (fuel, 1, rs.length)

end

/-- Number of `executed` events for request `r` in an event log. -/
def countExec (log : List EvEvent) (r : Nat) : Nat :=
  (log.filter (fun e => e = .executed r)).length

/-- Number of `executed` events whose request has statistics kind `k`. -/
def countExecKind (p : EvalProgram) (log : List EvEvent) (k : Nat) : Nat :=
  (log.filter (fun e =>
    match e with
    | .executed r => p.kindName r = k
    | _ => false)).length

/-! ## Circularity checking (lib/Sema/TypeCheckDecl.cpp, `checkCircularity`)

Declarations are identified by `Nat`; `inh` abstracts the per-kind
`getInheritedForCycleCheck` adapter (superclass of a class, inherited
protocols of a protocol, raw-type enum of an enum).  The `CircularityCheck`
tri-state lives on each declaration; diagnostics record the arguments passed
to `TypeChecker::diagnose`.  The C++ recursion is bounded here by explicit
fuel, consumed only when a declaration's inherited list is walked. -/

inductive CircularityCheck where
  | unchecked
  | checking
  | checked
deriving DecidableEq

inductive CircDiag where
  | circular (loc : Nat) (name : Nat)
  | declaredHere (d : Nat)
deriving DecidableEq

structure CircState where
  circ : Nat → CircularityCheck
  diags : List CircDiag

def setCirc (st : CircState) (d : Nat) (c : CircularityCheck) : CircState :=
  { st with circ := fun x => if x = d then c else st.circ x }

/-- The `CircularityCheck::Checking` branch of `checkCircularity`: scan the
current path backwards from its end for the repeated declaration (the start
of the cycle); if the cycle has length one emit the single self-referencing
circularity diagnostic at `path.back()`, otherwise emit the circularity
diagnostic at the repeated declaration followed by one declared-here note per
path entry strictly after the cycle start. -/
def emitCycleDiags (decl : Nat) (path : List Nat) : List CircDiag :=
  -- Scanning backwards, the entries after the cycle start (in reverse order);
  -- the cycle start is the scanned occurrence of `decl` itself, so the
  -- circularity diagnostic names `decl` in both branches.
  let afterRev := path.reverse.takeWhile (fun x => x ≠ decl)
  if afterRev.isEmpty then
    -- `path.end() - cycleStart == 1`: the type directly references itself;
    -- diagnose at `path.back()`.
    match path.reverse with
    | [] => []
    | back :: _ => [CircDiag.circular back back]
  else
    CircDiag.circular decl decl :: afterRev.reverse.map CircDiag.declaredHere

mutual

def checkCircularity (inh : Nat → List Nat) (fuel : Nat) (decl : Nat)
    (path : List Nat) (st : CircState) : CircState :=
  match st.circ decl with
  | .checked => st
  | .checking => { st with diags := st.diags ++ emitCycleDiags decl path }
  | .unchecked =>
    match fuel with
    | 0 => st
    | fuel' + 1 =>
      let st1 := setCirc st decl .checking
      let st2 := checkCircularityList inh fuel' (inh decl) (path ++ [decl]) st1
      setCirc st2 decl .checked
termination_by (fuel, 0, 0)

def checkCircularityList (inh : Nat → List Nat) (fuel : Nat) (ds : List Nat)
    (path : List Nat) (st : CircState) : CircState :=
  match ds with
  | [] => st
  | d :: rest =>
    checkCircularityList inh fuel rest path (checkCircularity inh fuel d path st)
termination_by (fuel, 1, ds.length)

end

/-- Rank of a circularity state in the Unchecked → Checking → Checked order. -/
def circRank : CircularityCheck → Nat
  | .unchecked => 0
  | .checking => 1
  | .checked => 2

/-! ## Inheritance-clause checking (lib/Sema/TypeCheckDecl.cpp,
`checkInheritanceClause`)

The embedding covers type declarations (classes, enums, protocols, structs,
generic type parameters); extension declarations are outside the modelled
scope.  A resolved inherited type (`InheritedTypeRequest` result) is
classified the way the loop classifies it: unresolved-or-erroneous,
`AnyObject`, an existential (with its layout's optional explicit superclass
and explicit-AnyObject flag), a class type, or some other (non-class,
non-protocol) type.  Source ranges are identified by clause indices: the
removal range `getRemovalRange(i)` by `i`, the fix-it insertion point
`inheritedClause[0].getSourceRange().Start` by entry `0`, the inserted text
`inheritedTy.getString() + ", "` by the inherited type itself. -/

inductive ITy where
  | errorTy
  | anyObject
  | protoComp (protos : List Nat) (explicitSuperclass : Option Nat)
      (hasExplicitAnyObject : Bool)
  | classTy (c : Nat)
  | otherTy (n : Nat)
deriving DecidableEq

/-- One inheritance-clause entry: its resolved type and whether its source
spelling begins with the `class` keyword (used by the Swift 4 `AnyObject`
compatibility warning). -/
structure IEntry where
  ty : ITy
  writtenAsClass : Bool
deriving DecidableEq

inductive IDeclKind where
  | classDecl
  | enumDecl
  | protoDecl (isObjC : Bool)
  | structDecl
  | typeParam
deriving DecidableEq

inductive InhDiag where
  | duplicateInheritance (loc : Nat) (ty : ITy) (fixRemove : Nat)
  | duplicateAnyObjectClassInheritance (classLoc : Nat) (fixRemove : Nat)
  | multipleEnumRawTypes (loc : Nat) (first second : ITy)
  | rawTypeNotFirst (loc : Nat) (ty : ITy) (fixRemove : Nat) (fixInsertAt : Nat)
      (fixInsertText : ITy)
  | multipleInheritance (loc : Nat) (first second : ITy)
  | superclassNotFirst (loc : Nat) (ty : ITy) (fixRemove : Nat) (fixInsertAt : Nat)
      (fixInsertText : ITy)
  | inheritanceFromProtocolWithSuperclass (ty : ITy)
  | inheritanceFromNonProtocolOrClass (ty : ITy)
  | inheritanceFromNonProtocol (ty : ITy)
deriving DecidableEq

structure ICState where
  superclass : Option (ITy × Nat)
  inheritedAnyObject : Option (Nat × Bool)
  diags : List InhDiag

def ITy.isAnyObject : ITy → Bool
  | .anyObject => true
  | _ => false

/-- `Type::isExistentialType()` together with `getExistentialLayout()`:
`(explicit superclass, has explicit AnyObject)`. -/
def ITy.existentialLayout : ITy → Option (Option Nat × Bool)
  | .anyObject => some (none, true)
  | .protoComp _ sup ao => some (sup, ao)
  | _ => none

def ITy.classOrBoundGenericClass : ITy → Option Nat
  | .classTy c => some c
  | _ => none

def IDeclKind.canHaveSuperclass : IDeclKind → Bool
  | .classDecl => true
  | .protoDecl isObjC => !isObjC
  | _ => false

def IDeclKind.isProto : IDeclKind → Bool
  | .protoDecl _ => true
  | _ => false

/-- The body of the per-entry loop of `checkInheritanceClause`, for entry `e`
at index `i`. -/
def icStep (kind : IDeclKind) (isSwift5 : Bool) (i : Nat) (e : IEntry)
    (st : ICState) : ICState :=
  -- If we couldn't resolve the inherited type, or it contains an error,
  -- ignore it.
  if e.ty = .errorTy then st
  -- For generic parameters and associated types the GSB checks constraints.
  else if kind = .typeParam then st
  else
    -- Check whether we inherited from 'AnyObject' twice.
    match st.inheritedAnyObject with
    | some (knownIndex, knownWrittenAsClass) =>
      if e.ty.isAnyObject then
        if !isSwift5 && (kind.isProto || kind = .typeParam) && knownWrittenAsClass then
          { st with diags := st.diags ++
              [.duplicateAnyObjectClassInheritance knownIndex knownIndex] }
        else
          { st with diags := st.diags ++ [.duplicateInheritance i e.ty knownIndex] }
      else icStepRest kind i e.ty st
    | none =>
      let st := if e.ty.isAnyObject then
          { st with inheritedAnyObject := some (i, e.writtenAsClass) }
        else st
      icStepRest kind i e.ty st
where
  /-- The remainder of the loop body past the AnyObject bookkeeping. -/
  icStepRest (kind : IDeclKind) (i : Nat) (ty : ITy) (st : ICState) : ICState :=
    match ty.existentialLayout with
    | some (explicitSuperclass, hasExplicitAnyObject) =>
      -- Subclass existentials are only allowed on classes and non-@objc
      -- protocols.
      if explicitSuperclass.isSome && !kind.canHaveSuperclass then
        { st with diags := st.diags ++ [.inheritanceFromProtocolWithSuperclass ty] }
      -- AnyObject is not allowed except on protocols.
      else if hasExplicitAnyObject && !kind.isProto then
        { st with diags := st.diags ++
            [if kind.canHaveSuperclass then .inheritanceFromNonProtocolOrClass ty
             else .inheritanceFromNonProtocol ty] }
      else
        match explicitSuperclass with
        -- If the existential did not have a class constraint, we're done.
        | none => st
        | some sup =>
          -- For protocols the GSB emits its own warning instead.
          if kind.isProto then st
          else icClassCase kind i (.classTy sup) st
    | none =>
      if kind = .enumDecl then
        -- Enum inheritance clause: check for a raw type.
        match st.superclass with
        | some (prevTy, _prevRange) =>
          if prevTy = ty then
            { st with diags := st.diags ++ [.duplicateInheritance i ty i] }
          else
            { st with diags := st.diags ++ [.multipleEnumRawTypes i prevTy ty] }
        | none =>
          let st := if 0 < i then
              { st with diags := st.diags ++ [.rawTypeNotFirst i ty i 0 ty] }
            else st
          -- Record the raw type.
          { st with superclass := some (ty, i) }
      else icClassCase kind i ty st
  /-- The "this may be the superclass" class-type case, followed by the final
  non-protocol/non-class diagnostic. -/
  icClassCase (kind : IDeclKind) (i : Nat) (ty : ITy) (st : ICState) : ICState :=
    if (ty.classOrBoundGenericClass).isSome then
      match st.superclass with
      | some (prevTy, _prevRange) =>
        if prevTy = ty then
          { st with diags := st.diags ++ [.duplicateInheritance i ty i] }
        else
          { st with diags := st.diags ++ [.multipleInheritance i prevTy ty] }
      | none =>
        let st := if kind = .classDecl && 0 < i then
            { st with diags := st.diags ++ [.superclassNotFirst i ty i 0 ty] }
          else st
        if kind.canHaveSuperclass then
          -- Record the superclass.
          { st with superclass := some (ty, i) }
        else
          { st with diags := st.diags ++
              [if kind.canHaveSuperclass then .inheritanceFromNonProtocolOrClass ty
               else .inheritanceFromNonProtocol ty] }
    else
      { st with diags := st.diags ++
          [if kind.canHaveSuperclass then .inheritanceFromNonProtocolOrClass ty
           else .inheritanceFromNonProtocol ty] }

def icLoop (kind : IDeclKind) (isSwift5 : Bool) (i : Nat) (entries : List IEntry)
    (st : ICState) : ICState :=
  match entries with
  | [] => st
  | e :: rest => icLoop kind isSwift5 (i + 1) rest (icStep kind isSwift5 i e st)

def checkInheritanceClause (kind : IDeclKind) (isSwift5 : Bool)
    (clause : List IEntry) : ICState :=
  icLoop kind isSwift5 0 clause { superclass := none, inheritedAnyObject := none, diags := [] }

/-! ## Enum raw-value checking (lib/Sema/TypeCheckDecl.cpp,
`getAutomaticRawValueExpr` and the per-case loop of `checkEnumRawValues`)

Raw-value literals are integer or string values (`APInt` values below any
128-bit wrap are modelled as unbounded integers; the `RawValueKey` of an
integer literal compares the value, of a string literal the string).  The
`AutomaticEnumValueKind` is determined before the loop from the raw type's
literal-protocol conformances (external to the excerpted loop) and is a
parameter here.  `typeCheckExpression` of a raw-value literal against the raw
type is modelled as succeeding exactly when the literal's kind matches the
automatic-value kind.  Diagnostic locations: an explicit raw value is
diagnosed at its literal, an implicit (auto-incremented) one at the case
itself. -/

inductive RawLit where
  | intLit (v : Int)
  | strLit (s : String)
deriving DecidableEq

inductive AutoKind where
  | noAuto
  | stringAuto
  | intAuto
deriving DecidableEq

structure ECase where
  id : Nat
  name : String
  invalid : Bool
  hasAssoc : Bool
  rawExpr : Option RawLit
deriving DecidableEq

inductive ELoc where
  | caseLoc (id : Nat)
  | litLoc (id : Nat)
deriving DecidableEq

inductive RawDiag where
  | caseWithArgument (loc : ELoc)
  | rawTypeHere
  | nonIntegerConvertibleNoValue (loc : ELoc)
  | nonIntegerAutoIncrement (loc : ELoc)
  | notUnique (loc : ELoc)
  | incrementingFromHere (loc : ELoc)
  | usedHere (loc : ELoc)
  | incrementingFromZero (loc : ELoc)
deriving DecidableEq

/-- `getAutomaticRawValueExpr`: the auto-incremented raw value for a case with
no explicit value, or `none` when the value is not auto-incrementable (in
which case a diagnostic was emitted for the `noAuto` and
non-integer-previous-value cases). -/
def getAutomaticRawValueExpr (valueKind : AutoKind) (forElt : ECase)
    (prevValue : Option RawLit) : Option RawLit × List RawDiag :=
  match valueKind with
  | .noAuto => (none, [.nonIntegerConvertibleNoValue (.caseLoc forElt.id)])
  | .stringAuto => (some (.strLit forElt.name), [])
  | .intAuto =>
    match prevValue with
    | none => (some (.intLit 0), [])
    | some (.intLit v) => (some (.intLit (v + 1)), [])
    | some (.strLit _) => (none, [.nonIntegerAutoIncrement (.caseLoc forElt.id)])

/-- Does type-checking the raw-value literal against the raw type succeed? -/
def rawTcOK (valueKind : AutoKind) : RawLit → Bool
  | .intLit _ => valueKind = .intAuto
  | .strLit _ => valueKind = .stringAuto

/-- An entry of the `uniqueRawValues` map: the case that first used a raw
value, whether its raw-value expression was implicit, and the
`lastExplicitValueElt` at the time it was inserted. -/
structure RawSeen where
  sourceElt : Nat
  srcImplicit : Bool
  lastExplicitAtInsert : Option Nat
deriving DecidableEq

def lookupSeen (key : RawLit) : List (RawLit × RawSeen) → Option RawSeen
  | [] => none
  | (k, s) :: rest => if k = key then some s else lookupSeen key rest

structure RawState where
  prevValue : Option (RawLit × Bool)
  lastExplicit : Option Nat
  seen : List (RawLit × RawSeen)
  diags : List RawDiag

/-- The raw-value location used for duplicate diagnostics: the case location
when the raw-value expression is implicit, its literal otherwise. -/
def rawDiagLoc (id : Nat) (implicit : Bool) : ELoc :=
  if implicit then .caseLoc id else .litLoc id

/-- The duplicate-value diagnostics of the loop's tail, given the current
case, the map entry that already held its raw value, and the loop state. -/
def rawDupDiags (valueKind : AutoKind) (firstCaseLoc : ELoc) (eltId : Nat)
    (implicit : Bool) (lastExplicit : Option Nat) (prev : RawSeen) :
    List RawDiag :=
  [RawDiag.notUnique (rawDiagLoc eltId implicit)]
  ++ (match lastExplicit with
      | some le =>
        if le ≠ eltId && valueKind = .intAuto then
          [RawDiag.incrementingFromHere (.litLoc le)]
        else []
      | none => [])
  ++ [RawDiag.usedHere (rawDiagLoc prev.sourceElt prev.srcImplicit)]
  ++ (if prev.lastExplicitAtInsert ≠ some prev.sourceElt && valueKind = .intAuto then
        match prev.lastExplicitAtInsert with
        | some le2 => [RawDiag.incrementingFromHere (.litLoc le2)]
        | none => [RawDiag.incrementingFromZero firstCaseLoc]
      else [])

/-- The per-case loop of `checkEnumRawValues`. -/
def rawLoop (valueKind : AutoKind) (firstCaseLoc : ELoc) :
    List ECase → RawState → RawState
  | [], st => st
  | elt :: rest, st =>
    -- validateDecl; skip invalid elements.
    if elt.invalid then rawLoop valueKind firstCaseLoc rest st
    -- We don't yet support raw values on payload cases.
    else if elt.hasAssoc then
      rawLoop valueKind firstCaseLoc rest
        { st with diags := st.diags ++ [.caseWithArgument (.caseLoc elt.id), .rawTypeHere] }
    else
      match elt.rawExpr with
      | some lit =>
        -- Check the raw value expr; remember the last explicit value.
        rawLoopTail valueKind firstCaseLoc elt.id lit false
          (rawTcOK valueKind lit) rest { st with lastExplicit := some elt.id }
      | none =>
        -- Auto-increment from the previous value, or start from zero.
        match getAutomaticRawValueExpr valueKind elt ((st.prevValue).map Prod.fst) with
        | (none, ds) =>
          -- Not auto-incrementable: mark invalid and abort the whole loop.
          { st with diags := st.diags ++ ds }
        | (some lit, ds) =>
          rawLoopTail valueKind firstCaseLoc elt.id lit true
            (rawTcOK valueKind lit) rest { st with diags := st.diags ++ ds }
where
  /-- The rest of the loop body once the case's raw-value literal is known:
  record `prevValue`, bail out on a failed type-check, then enforce
  uniqueness. -/
  rawLoopTail (valueKind : AutoKind) (firstCaseLoc : ELoc) (eltId : Nat)
      (lit : RawLit) (implicit : Bool) (tcOK : Bool) (rest : List ECase)
      (st : RawState) : RawState :=
    let st := { st with prevValue := some (lit, implicit) }
    if !tcOK then rawLoop valueKind firstCaseLoc rest st
    else
      -- Check that the raw value is unique.
      match lookupSeen lit st.seen with
      | none =>
        rawLoop valueKind firstCaseLoc rest
          { st with seen := st.seen ++
              [(lit, { sourceElt := eltId, srcImplicit := implicit,
                       lastExplicitAtInsert := st.lastExplicit })] }
      | some prev =>
        rawLoop valueKind firstCaseLoc rest
          { st with diags := st.diags ++
              rawDupDiags valueKind firstCaseLoc eltId implicit st.lastExplicit prev }

/-- The raw-value checking loop of `checkEnumRawValues`, from an initial
state. -/
def checkEnumRawValues (valueKind : AutoKind) (cases : List ECase) : RawState :=
  let firstCaseLoc : ELoc :=
    match cases with
    | [] => .caseLoc 0
    | c :: _ => .caseLoc c.id
  rawLoop valueKind firstCaseLoc cases
    { prevValue := none, lastExplicit := none, seen := [], diags := [] }

/-! ## Redeclaration checking (lib/Sema/TypeCheckDecl.cpp,
`checkRedeclaration`)

The embedding covers named value declarations of one source file at module
scope (the `currentDC->isTypeContext()` lookup path and cross-file/SIL paths
are outside the modelled scope; all declarations share one module and file
and have valid source locations).  Interface types are opaque identifiers
with an error-type wrapper (`ErrorType::get`).  The overload-signature
comparisons `conflicting(...)` and accessibility are AST-layer functions not
in the excerpt; they are oracles keyed by declaration identity, supplied in
`RedeclEnv`.  Swift-version-specific availability attributes are folded into
the introduced/obsoleted bounds `AvailabilityRange::from` computes. -/

inductive Ty where
  | base (n : Nat)
  | errorTy (orig : Ty)
deriving DecidableEq

inductive VKind where
  | funcK (hasThrows : Bool)
  | ctorK (failable : Bool) (implicit : Bool) (memberwise : Bool)
  | varK (hasStorage : Bool)
  | otherK
deriving DecidableEq

structure VDecl where
  id : Nat
  baseName : Nat
  loc : Nat
  kind : VKind
  interfaceType : Option Ty
  invalid : Bool
  checkedRedecl : Bool
  overridden : Option Nat
  availIntroduced : Option Nat
  availObsoleted : Option Nat
deriving DecidableEq

structure RedeclEnv where
  conflictingSig : Nat → Nat → Bool
  conflictingFull : Nat → Nat → Bool × Bool
  accessible : Nat → Nat → Bool

inductive RedeclDiag where
  | multipleOverride (d : Nat)
  | multipleOverridePrev (d : Nat)
  | invalidRedeclSwift5Warning (d : Nat)
  | invalidRedecl (d : Nat)
  | invalidRedeclPrev (d : Nat)
  | invalidRedeclInit (d : Nat) (memberwise : Bool)
deriving DecidableEq

/-- `AvailabilityRange::fullyPrecedes`. -/
def availFullyPrecedes (aObs bIntro : Option Nat) : Bool :=
  match aObs, bIntro with
  | some o, some i => o ≤ i
  | _, _ => false

/-- `AvailabilityRange::overlaps`. -/
def availOverlaps (a b : VDecl) : Bool :=
  !availFullyPrecedes a.availObsoleted b.availIntroduced &&
  !availFullyPrecedes b.availObsoleted a.availIntroduced

def VKind.isCtor : VKind → Bool
  | .ctorK .. => true
  | _ => false

def VKind.ctorFailable : VKind → Bool
  | .ctorK f _ _ => f
  | _ => false

def VKind.isAFD : VKind → Bool
  | .funcK _ => true
  | .ctorK .. => true
  | _ => false

def VKind.afdThrows : VKind → Bool
  | .funcK t => t
  | _ => false

def VKind.isVar : VKind → Bool
  | .varK _ => true
  | _ => false

def VKind.varHasStorage : VKind → Bool
  | .varK s => s
  | _ => false

/-- `markInvalid`: mark the declaration invalid and substitute an error-type
sentinel for its interface type. -/
def markInvalidDecl (d : VDecl) : VDecl :=
  { d with
    invalid := true
    interfaceType := (d.interfaceType).map Ty.errorTy }

def updateDecl (file : List VDecl) (d : VDecl) : List VDecl :=
  file.map fun x => if x.id = d.id then d else x

def lookupDecl (file : List VDecl) (i : Nat) : Option VDecl :=
  file.find? fun x => x.id = i

/-- The `isAcceptableVersionBasedChange` predicate of the redeclaration loop:
initializers with different failability, one throwing and one non-throwing
function, or computed properties of different types. -/
def acceptableVersionBasedChange (current other : VDecl) : Bool :=
  (current.kind.isCtor && other.kind.isCtor &&
    current.kind.ctorFailable ≠ other.kind.ctorFailable)
  || (current.kind.isAFD && other.kind.isAFD &&
      current.kind.afdThrows ≠ other.kind.afdThrows)
  || (current.kind.isVar && other.kind.isVar &&
      !current.kind.varHasStorage && !other.kind.varHasStorage &&
      current.interfaceType ≠ other.interfaceType)

/-- The body of the redeclaration loop for one candidate `other`, once the
overload signatures are known to conflict with types
(`isRedeclaration || wouldBeSwift5Redeclaration`).  Returns the updated file,
the emitted diagnostics, and whether to `break`. -/
def redeclConflict (current other : VDecl) (wouldBeSwift5 : Bool)
    (file : List VDecl) : List VDecl × List RedeclDiag :=
  -- Order the pair so diagnostics land on the later declaration
  -- (`isBeforeInBuffer` + swap).
  let (current, other) :=
    if current.loc < other.loc then (other, current) else (current, other)
  -- Non-overlapping availability of acceptable version-based changes lets the
  -- redeclaration proceed.
  if acceptableVersionBasedChange current other && !availOverlaps current other then
    (file, [])
  else
    -- Two stored properties of the same type always get the Swift 5 error.
    let wouldBeSwift5 :=
      if wouldBeSwift5 && current.kind.isVar && other.kind.isVar &&
          current.interfaceType = other.interfaceType then
        false
      else wouldBeSwift5
    if wouldBeSwift5 then
      let file := updateDecl file { current with checkedRedecl := true }
      (file, [.invalidRedeclSwift5Warning current.id, .invalidRedeclPrev other.id])
    else
      let diags :=
        match other.kind with
        | .ctorK _ true memberwise =>
          -- Implicit initializer: better description, except for inherited
          -- initializers (overridden by the other declaration).
          if other.overridden = none then [RedeclDiag.invalidRedeclInit current.id memberwise]
          else []
        | _ => [RedeclDiag.invalidRedecl current.id, RedeclDiag.invalidRedeclPrev other.id]
      let file := updateDecl file (markInvalidDecl { current with checkedRedecl := true })
      (file, diags)

/-- The loop of `checkRedeclaration` over the other potential definitions. -/
def redeclLoop (env : RedeclEnv) (current : VDecl) (file : List VDecl) :
    List VDecl → List VDecl × List RedeclDiag
  | [] => (file, [])
  | other :: rest =>
    -- Skip ourselves and invalid declarations.
    if other.id = current.id || other.invalid then redeclLoop env current file rest
    -- Check whether the overload signatures conflict, ignoring the type.
    else if !env.conflictingSig current.id other.id then redeclLoop env current file rest
    -- Skip declarations without an interface type.
    else if other.interfaceType = none then redeclLoop env current file rest
    -- Skip inaccessible declarations.
    else if !env.accessible other.id current.id then redeclLoop env current file rest
    -- Thwart attempts to override the same declaration more than once.
    else if current.overridden.isSome && current.overridden = other.overridden then
      (updateDecl file (markInvalidDecl current),
       [.multipleOverride current.id, .multipleOverridePrev other.id])
    else
      let (isRedecl, wouldBeSwift5) := env.conflictingFull current.id other.id
      if isRedecl || wouldBeSwift5 then
        redeclConflict current other wouldBeSwift5 file
      else
        redeclLoop env current file rest

/-- `checkRedeclaration` for a module-scope declaration of one source file:
find other definitions with the same base name and diagnose the first
conflicting one. -/
def checkRedeclaration (env : RedeclEnv) (file : List VDecl) (currentId : Nat) :
    List VDecl × List RedeclDiag :=
  match lookupDecl file currentId with
  | none => (file, [])
  | some current =>
    -- If we've already checked this declaration, don't do it again.
    if current.checkedRedecl then (file, [])
    -- If there's no type yet, come back to it later.
    else if current.interfaceType = none then (file, [])
    else
      -- Make sure we don't do this checking again.
      let current := { current with checkedRedecl := true }
      let file := updateDecl file current
      -- Ignore invalid declarations.
      if current.invalid then (file, [])
      else
        -- Find other potential definitions (module-scope lookup by base name).
        let otherDefinitions := file.filter fun x => x.baseName = current.baseName
        redeclLoop env current file otherDefinitions

/-! ## Theorems -/

/-- C9: Locator simplification is anchor-preserving and deterministic
(`simplifyLocator` is a function of the locator alone): simplifying a locator
whose path is non-empty (i.e. has not become empty through simplification, per
§3 "must not change the anchor unless the path becomes empty") never changes
its anchor expression, and simplifying a locator with an empty path returns
the locator unchanged. -/
theorem simplifyLocator_anchor_preserving (loc : Locator) :
    (loc.path = [] → simplifyLocator loc = loc)
    ∧ ((simplifyLocator loc).path ≠ [] → (simplifyLocator loc).anchor = loc.anchor) := by
  constructor
  · intro h
    obtain ⟨a, p⟩ := loc
    subst h
    rfl
  · intro h
    unfold simplifyLocator at h ⊢
    cases hr : resolvePath loc.anchor loc.path with
    | some e => rw [hr] at h; simp at h
    | none => rfl

/-- C9 witness: the theorem at the locator with anchor node 0 and empty
path. -/
theorem simplifyLocator_anchor_preserving_witness :
    ((⟨MExpr.mk 0 [], []⟩ : Locator).path = [] →
      simplifyLocator ⟨MExpr.mk 0 [], []⟩ = ⟨MExpr.mk 0 [], []⟩)
    ∧ ((simplifyLocator ⟨MExpr.mk 0 [], []⟩).path ≠ [] →
      (simplifyLocator ⟨MExpr.mk 0 [], []⟩).anchor = (MExpr.mk 0 [])) :=
  simplifyLocator_anchor_preserving ⟨MExpr.mk 0 [], []⟩

/-- C10: `ForceOptional::create` keeps two locators: the primary locator
(returned by `getLocator`) is the anchor-simplified form of the argument
locator, the original full locator is retained separately, and `diagnose`
hands the full (original) locator to `MissingOptionalUnwrapFailure`; on a
locator with a non-trivially resolvable path the primary locator differs from
the argument locator. -/
theorem forceOptional_create_two_locators (b u cp : Nat) (loc : Locator)
    (root : MExpr) :
    (ForceOptionalFix.create b u loc).getLocator
      = getConstraintLocator (simplifyLocatorToAnchor loc)
    ∧ (ForceOptionalFix.create b u loc).fullLocator = loc
    ∧ fixDiagnose cp (.forceOptional (ForceOptionalFix.create b u loc)) root
      = .missingOptionalUnwrap root b u loc
    ∧ (ForceOptionalFix.create b u
        ⟨MExpr.mk 0 [MExpr.mk 1 []], [0]⟩).getLocator
      ≠ ⟨MExpr.mk 0 [MExpr.mk 1 []], [0]⟩ := by
  refine ⟨rfl, rfl, rfl, ?_⟩
  intro h
  have := congrArg Locator.path h
  simp [ForceOptionalFix.create, ForceOptionalFix.getLocator,
    getConstraintLocator] at this

/-- Helper: `takeWhile (· ≠ d)` on a list whose first occurrence of `d` is at
the border `xs ++ d :: ys`, with `d` not in `xs`, takes exactly `xs`. -/
theorem takeWhile_ne_append (d : Nat) (xs ys : List Nat) (h : d ∉ xs) :
    (xs ++ d :: ys).takeWhile (fun x => x ≠ d) = xs := by
  induction xs with
  | nil => simp
  | cons a as ih =>
    have ha : ¬ (a = d) := by rintro rfl; exact h (List.mem_cons_self ..)
    have h' : d ∉ as := fun hm => h (List.mem_cons_of_mem _ hm)
    simp only [List.cons_append, List.takeWhile_cons]
    have hb : (decide (a ≠ d)) = true := by simp [ha]
    rw [if_pos hb, ih h']

/-- C3: when `checkCircularity` encounters a declaration already in the
`Checking` state, the diagnostics it appends cover exactly the minimal cycle:
scanning the path backwards to the repeated declaration, it emits a single
self-referencing circularity diagnostic when the cycle has length one, and
otherwise the circularity diagnostic at the repeated declaration plus one
declared-here note per declaration strictly inside the cycle — the
declarations of the visited path preceding the cycle start (`pre`) never
appear. -/
theorem checkCircularity_minimal_cycle (inh : Nat → List Nat) (fuel : Nat)
    (pre post : List Nat) (d : Nat) (st : CircState)
    (hpost : d ∉ post) (hchk : st.circ d = .checking) :
    emitCycleDiags d (pre ++ d :: post)
      = (if post.isEmpty then [CircDiag.circular d d]
         else CircDiag.circular d d :: post.map CircDiag.declaredHere)
    ∧ checkCircularity inh fuel d (pre ++ d :: post) st
      = { st with diags := st.diags ++ emitCycleDiags d (pre ++ d :: post) } := by
  have hrev : (pre ++ d :: post).reverse = post.reverse ++ d :: pre.reverse := by
    simp
  have htake : ((pre ++ d :: post).reverse).takeWhile (fun x => x ≠ d)
      = post.reverse := by
    rw [hrev]
    exact takeWhile_ne_append d post.reverse pre.reverse (by simpa using hpost)
  constructor
  · unfold emitCycleDiags
    rw [htake]
    cases post with
    | nil =>
      simp only [List.isEmpty_nil, List.reverse_nil, if_true]
      rw [hrev]
      simp
    | cons q qs =>
      have : ¬ ((q :: qs).reverse.isEmpty = true) := by simp
      simp only [this, if_false]
      simp
  · cases fuel with
    | zero => rw [checkCircularity.eq_1, hchk]
    | succ n => rw [checkCircularity.eq_2, hchk]

/-- C3 witness: the theorem at `pre = [5]`, `post = [2]`, `d = 1`, with the
state holding `1` in the `Checking` state. -/
theorem checkCircularity_minimal_cycle_witness :
    (emitCycleDiags 1 ([5] ++ 1 :: [2])
      = (if ([2] : List Nat).isEmpty then [CircDiag.circular 1 1]
         else CircDiag.circular 1 1 :: [2].map CircDiag.declaredHere))
    ∧ checkCircularity (fun _ => []) 0 1 ([5] ++ 1 :: [2])
        ⟨fun _ => .checking, []⟩
      = { (⟨fun _ => .checking, []⟩ : CircState) with
          diags := (⟨fun _ => .checking, []⟩ : CircState).diags
            ++ emitCycleDiags 1 ([5] ++ 1 :: [2]) } :=
  checkCircularity_minimal_cycle (fun _ => []) 0 [5] [2] 1
    ⟨fun _ => .checking, []⟩ (by decide) rfl

/-- Helper: `circRank` is at most 2. -/
theorem circRank_le_two (c : CircularityCheck) : circRank c ≤ 2 := by
  cases c <;> simp [circRank]

/-- Helper: monotonicity of the circularity tri-state along
`checkCircularityList`, given it for `checkCircularity` at the same fuel. -/
theorem checkCircularityList_mono (inh : Nat → List Nat) (fuel : Nat)
    (IH : ∀ d path st x, circRank (st.circ x)
      ≤ circRank ((checkCircularity inh fuel d path st).circ x)) :
    ∀ ds path st x, circRank (st.circ x)
      ≤ circRank ((checkCircularityList inh fuel ds path st).circ x) := by
  intro ds
  induction ds with
  | nil => intro path st x; rw [checkCircularityList.eq_1]
  | cons a as ih =>
    intro path st x
    rw [checkCircularityList.eq_2]
    exact le_trans (IH a path st x) (ih path (checkCircularity inh fuel a path st) x)

/-- Helper: the circularity tri-state never moves backwards across
`checkCircularity`. -/
theorem checkCircularity_mono (inh : Nat → List Nat) :
    ∀ fuel d path st x, circRank (st.circ x)
      ≤ circRank ((checkCircularity inh fuel d path st).circ x) := by
  intro fuel
  induction fuel with
  | zero =>
    intro d path st x
    rw [checkCircularity.eq_1]
    cases h : st.circ d <;> exact le_refl _
  | succ f ih =>
    intro d path st x
    rw [checkCircularity.eq_2]
    cases h : st.circ d <;> try exact le_refl _
    case unchecked =>
      by_cases hx : x = d
      · subst hx
        simp only [setCirc]
        simp [circRank, h, circRank_le_two]
      · have h1 : (setCirc st d .checking).circ x = st.circ x := by
          simp [setCirc, hx]
        have h3 : ∀ st2 : CircState, (setCirc st2 d .checked).circ x = st2.circ x := by
          intro st2; simp [setCirc, hx]
        rw [h3]
        calc circRank (st.circ x)
            = circRank ((setCirc st d .checking).circ x) := by rw [h1]
          _ ≤ _ := checkCircularityList_mono inh f ih (inh d) (path ++ [d])
                (setCirc st d .checking) x

/-- C4: the circularity state only ever advances along
Unchecked → Checking → Checked (its rank never decreases across a
`checkCircularity` traversal, and hence across every intermediate call, each
of which is itself of this form), and a declaration whose state is `Checked`
is never re-entered or re-diagnosed: the traversal returns the state entirely
unchanged. -/
theorem checkCircularity_state_transitions (inh : Nat → List Nat) (fuel d : Nat)
    (path : List Nat) (st : CircState) (x : Nat) :
    circRank (st.circ x) ≤ circRank ((checkCircularity inh fuel d path st).circ x)
    ∧ (st.circ d = .checked → checkCircularity inh fuel d path st = st) := by
  refine ⟨checkCircularity_mono inh fuel d path st x, fun h => ?_⟩
  cases fuel with
  | zero => rw [checkCircularity.eq_1, h]
  | succ n => rw [checkCircularity.eq_2, h]

/-- C4 witness: the theorem at a concrete one-declaration graph whose
declaration is already `Checked`. -/
theorem checkCircularity_state_transitions_witness :
    circRank ((⟨fun _ => .checked, []⟩ : CircState).circ 0)
      ≤ circRank ((checkCircularity (fun _ => [0]) 1 0 []
          ⟨fun _ => .checked, []⟩).circ 0)
    ∧ ((⟨fun _ => .checked, []⟩ : CircState).circ 0 = .checked →
        checkCircularity (fun _ => [0]) 1 0 [] ⟨fun _ => .checked, []⟩
          = ⟨fun _ => .checked, []⟩) :=
  checkCircularity_state_transitions (fun _ => [0]) 1 0 [] ⟨fun _ => .checked, []⟩ 0

/-- C6: every `ConstraintFix` variant's `diagnose` delegates to exactly one
`FailureDiagnostic` variant, chosen as a pure function of the fix's kind and
stored fields alone (the chosen variant does not depend on the root expression
or the constraint system's contextual purpose); in particular a
`ForceOptional` fix built from a base type, unwrapped type and locator
produces exactly the `MissingOptionalUnwrapFailure` built from that same base
type, unwrapped type and locator. -/
theorem fixDiagnose_closed_mapping (f : ConstraintFix) (cp cp' : Nat)
    (root root' : MExpr) (b u : Nat) (loc : Locator) :
    diagVariant (fixDiagnose cp f root) = diagVariant (fixDiagnose cp' f root')
    ∧ fixDiagnose cp (.forceOptional (ForceOptionalFix.create b u loc)) root
      = .missingOptionalUnwrap root b u loc := by
  refine ⟨?_, rfl⟩
  cases f with
  | missingConformance isContextual nc pt locator => cases isContextual <;> rfl
  | allowInvalidInitRef kind baseType init isStaticallyDerived baseRange locator =>
    cases kind <;> rfl
  | allowInvalidRefInKeyPath kind member locator => cases kind <;> rfl
  | _ => rfl

/-- Helper: a plain protocol entry (an existential with neither a superclass
constraint nor an explicit `AnyObject`) is skipped by the inheritance-clause
loop for any declaration kind other than a generic type parameter, leaving
the state unchanged. -/
theorem icStep_plainProto (kind : IDeclKind) (isSwift5 : Bool) (i : Nat)
    (l : List Nat) (w : Bool) (st : ICState) (hk : kind ≠ .typeParam) :
    icStep kind isSwift5 i ⟨ITy.protoComp l none false, w⟩ st = st := by
  unfold icStep
  cases h : st.inheritedAnyObject with
  | none => simp [hk, icStep.icStepRest, ITy.isAnyObject, ITy.existentialLayout]
  | some p => simp [hk, icStep.icStepRest, ITy.isAnyObject, ITy.existentialLayout]

/-- Helper: a prefix of plain protocol entries passes through the
inheritance-clause loop without touching the state, advancing only the entry
index. -/
theorem icLoop_plainProtos (kind : IDeclKind) (isSwift5 : Bool)
    (hk : kind ≠ .typeParam) :
    ∀ (ps : List IEntry) (i : Nat) (rest : List IEntry) (st : ICState),
      (∀ e ∈ ps, ∃ l, e.ty = ITy.protoComp l none false) →
      icLoop kind isSwift5 i (ps ++ rest) st
        = icLoop kind isSwift5 (i + ps.length) rest st := by
  intro ps
  induction ps with
  | nil => intro i rest st _; simp
  | cons e es ih =>
    intro i rest st hp
    obtain ⟨l, hl⟩ := hp e (List.mem_cons_self ..)
    obtain ⟨ty, w⟩ := e
    simp only at hl
    subst hl
    rw [List.cons_append, icLoop, icStep_plainProto kind isSwift5 i l w st hk,
      ih (i + 1) rest st (fun e' he' => hp e' (List.mem_cons_of_mem _ he'))]
    congr 1
    simp only [List.length_cons]
    omega

/-- C5: for a class whose inheritance clause lists its superclass `C` after a
non-empty prefix of plain protocol entries, `checkInheritanceClause` still
records `C` as the superclass and emits exactly one superclass-not-first
diagnostic whose fix-its remove the entry at its position and insert its text
first; the same ordering rule with the same reordering fix-it applies to an
enum raw type not listed first. -/
theorem checkInheritanceClause_ordering (ps : List IEntry) (c n : Nat)
    (isSwift5 : Bool) (hne : ps ≠ [])
    (hp : ∀ e ∈ ps, ∃ l, e.ty = ITy.protoComp l none false) :
    (checkInheritanceClause .classDecl isSwift5
        (ps ++ [⟨ITy.classTy c, false⟩])).superclass
      = some (ITy.classTy c, ps.length)
    ∧ (checkInheritanceClause .classDecl isSwift5
        (ps ++ [⟨ITy.classTy c, false⟩])).diags
      = [InhDiag.superclassNotFirst ps.length (ITy.classTy c) ps.length 0
          (ITy.classTy c)]
    ∧ (checkInheritanceClause .enumDecl isSwift5
        (ps ++ [⟨ITy.otherTy n, false⟩])).superclass
      = some (ITy.otherTy n, ps.length)
    ∧ (checkInheritanceClause .enumDecl isSwift5
        (ps ++ [⟨ITy.otherTy n, false⟩])).diags
      = [InhDiag.rawTypeNotFirst ps.length (ITy.otherTy n) ps.length 0
          (ITy.otherTy n)] := by
  have hpos : 0 < ps.length := List.length_pos.mpr hne
  have hcls := icLoop_plainProtos .classDecl isSwift5 (by simp) ps 0
    [⟨ITy.classTy c, false⟩] ⟨none, none, []⟩ hp
  have henu := icLoop_plainProtos .enumDecl isSwift5 (by simp) ps 0
    [⟨ITy.otherTy n, false⟩] ⟨none, none, []⟩ hp
  unfold checkInheritanceClause
  rw [hcls, henu]
  simp only [Nat.zero_add]
  rw [icLoop, icLoop]
  simp [icStep, ITy.isAnyObject, icStep.icStepRest, ITy.existentialLayout,
    icStep.icClassCase, ITy.classOrBoundGenericClass, IDeclKind.canHaveSuperclass,
    hpos, icLoop]

/-- C5 witness: the theorem at the clause `P, C` (one plain protocol entry,
then the class / raw type). -/
theorem checkInheritanceClause_ordering_witness :
    (checkInheritanceClause .classDecl true
        (([⟨ITy.protoComp [7] none false, false⟩] : List IEntry)
          ++ [⟨ITy.classTy 3, false⟩])).superclass
      = some (ITy.classTy 3, 1)
    ∧ (checkInheritanceClause .classDecl true
        (([⟨ITy.protoComp [7] none false, false⟩] : List IEntry)
          ++ [⟨ITy.classTy 3, false⟩])).diags
      = [InhDiag.superclassNotFirst 1 (ITy.classTy 3) 1 0 (ITy.classTy 3)]
    ∧ (checkInheritanceClause .enumDecl true
        (([⟨ITy.protoComp [7] none false, false⟩] : List IEntry)
          ++ [⟨ITy.otherTy 4, false⟩])).superclass
      = some (ITy.otherTy 4, 1)
    ∧ (checkInheritanceClause .enumDecl true
        (([⟨ITy.protoComp [7] none false, false⟩] : List IEntry)
          ++ [⟨ITy.otherTy 4, false⟩])).diags
      = [InhDiag.rawTypeNotFirst 1 (ITy.otherTy 4) 1 0 (ITy.otherTy 4)] :=
  checkInheritanceClause_ordering [⟨ITy.protoComp [7] none false, false⟩] 3 4 true
    (by simp)
    (fun e he => by
      rw [List.mem_singleton] at he
      subst he
      exact ⟨[7], rfl⟩)

/-- C7: for an enum with an Int raw type whose two cases declare the same
explicit raw value, raw-value checking produces exactly one
raw-value-not-unique error located at the later case's raw-value literal plus
exactly one used-here note located at the earlier case's raw-value literal,
and nothing else. -/
theorem checkEnumRawValues_duplicate (a b : Nat) (na nb : String) (v : Int)
    (_hab : a ≠ b) :
    (checkEnumRawValues .intAuto
      [⟨a, na, false, false, some (.intLit v)⟩,
       ⟨b, nb, false, false, some (.intLit v)⟩]).diags
      = [RawDiag.notUnique (.litLoc b), RawDiag.usedHere (.litLoc a)] := by
  simp [checkEnumRawValues, rawLoop, rawLoop.rawLoopTail, rawTcOK, lookupSeen,
    rawDupDiags, rawDiagLoc]

/-- C7 witness: the theorem at `enum E: Int { case a = 1; case b = 1 }`
(case identifiers 0 and 1, both raw values 1). -/
theorem checkEnumRawValues_duplicate_witness :
    (0 : Nat) ≠ 1
    ∧ (checkEnumRawValues .intAuto
        [⟨0, "a", false, false, some (.intLit 1)⟩,
         ⟨1, "b", false, false, some (.intLit 1)⟩]).diags
      = [RawDiag.notUnique (.litLoc 1), RawDiag.usedHere (.litLoc 0)] :=
  ⟨by decide, checkEnumRawValues_duplicate 0 1 "a" "b" 1 (by decide)⟩

/-- C8: for two sibling top-level functions of one source file with
conflicting overload signatures, redeclaration checking — in whichever order
the two declarations are checked — produces exactly one invalid-redeclaration
error attached to the later declaration (by source order) together with one
note referencing the earlier declaration, marks the later declaration invalid
with its interface type replaced by the error-type sentinel, and leaves the
earlier declaration valid. -/
theorem checkRedeclaration_siblings (env : RedeclEnv) (fid gid nm fl gl th : Nat)
    (tf tg : Ty)
    (hid : fid ≠ gid) (hloc : fl < gl)
    (hsig₁ : env.conflictingSig fid gid = true)
    (hsig₂ : env.conflictingSig gid fid = true)
    (hfull₁ : env.conflictingFull fid gid = (true, false))
    (hfull₂ : env.conflictingFull gid fid = (true, false))
    (hacc₁ : env.accessible gid fid = true)
    (hacc₂ : env.accessible fid gid = true) :
    let f : VDecl := ⟨fid, nm, fl, .funcK (th % 2 = 0), some tf, false, false,
      none, none, none⟩
    let g : VDecl := ⟨gid, nm, gl, .funcK (th % 2 = 0), some tg, false, false,
      none, none, none⟩
    let fChecked : VDecl := { f with checkedRedecl := true }
    let gInvalid : VDecl := { g with
      checkedRedecl := true
      invalid := true
      interfaceType := some (.errorTy tg) }
    -- checking the earlier declaration first:
    (checkRedeclaration env [f, g] fid).2
        = [RedeclDiag.invalidRedecl gid, RedeclDiag.invalidRedeclPrev fid]
    ∧ (checkRedeclaration env [f, g] fid).1 = [fChecked, gInvalid]
    ∧ (checkRedeclaration env (checkRedeclaration env [f, g] fid).1 gid).2 = []
    ∧ (checkRedeclaration env (checkRedeclaration env [f, g] fid).1 gid).1
        = [fChecked, gInvalid]
    -- checking the later declaration first:
    ∧ (checkRedeclaration env [f, g] gid).2
        = [RedeclDiag.invalidRedecl gid, RedeclDiag.invalidRedeclPrev fid]
    ∧ (checkRedeclaration env [f, g] gid).1 = [f, gInvalid]
    ∧ (checkRedeclaration env (checkRedeclaration env [f, g] gid).1 fid).2 = []
    ∧ (checkRedeclaration env (checkRedeclaration env [f, g] gid).1 fid).1
        = [fChecked, gInvalid] := by
  intro f g fChecked gInvalid
  have hid' : gid ≠ fid := Ne.symm hid
  have hnlt : ¬ (gl < fl) := Nat.not_lt.mpr (Nat.le_of_lt hloc)
  refine ⟨?_, ?_, ?_, ?_, ?_, ?_, ?_, ?_⟩ <;>
    simp [checkRedeclaration, lookupDecl, updateDecl, redeclLoop, redeclConflict,
      markInvalidDecl, acceptableVersionBasedChange, availOverlaps,
      availFullyPrecedes, VKind.isCtor, VKind.isAFD, VKind.afdThrows, VKind.isVar,
      VKind.ctorFailable, VKind.varHasStorage, List.find?, List.filter,
      f, g, fChecked, gInvalid, hid, hid', hloc, hnlt, hsig₁, hsig₂, hfull₁,
      hfull₂, hacc₁, hacc₂]

/-- C8 witness: the theorem at two concrete conflicting top-level functions
(identifiers 0 and 1, source locations 10 < 20) with an oracle declaring
their signatures conflicting. -/
theorem checkRedeclaration_siblings_witness :
    let env : RedeclEnv :=
      ⟨fun _ _ => true, fun _ _ => (true, false), fun _ _ => true⟩
    let f : VDecl := ⟨0, 5, 10, .funcK (0 % 2 = 0), some (.base 1), false, false,
      none, none, none⟩
    let g : VDecl := ⟨1, 5, 20, .funcK (0 % 2 = 0), some (.base 2), false, false,
      none, none, none⟩
    let fChecked : VDecl := { f with checkedRedecl := true }
    let gInvalid : VDecl := { g with
      checkedRedecl := true
      invalid := true
      interfaceType := some (.errorTy (.base 2)) }
    (checkRedeclaration env [f, g] 0).2
        = [RedeclDiag.invalidRedecl 1, RedeclDiag.invalidRedeclPrev 0]
    ∧ (checkRedeclaration env [f, g] 0).1 = [fChecked, gInvalid]
    ∧ (checkRedeclaration env (checkRedeclaration env [f, g] 0).1 1).2 = []
    ∧ (checkRedeclaration env (checkRedeclaration env [f, g] 0).1 1).1
        = [fChecked, gInvalid]
    ∧ (checkRedeclaration env [f, g] 1).2
        = [RedeclDiag.invalidRedecl 1, RedeclDiag.invalidRedeclPrev 0]
    ∧ (checkRedeclaration env [f, g] 1).1 = [f, gInvalid]
    ∧ (checkRedeclaration env (checkRedeclaration env [f, g] 1).1 0).2 = []
    ∧ (checkRedeclaration env (checkRedeclaration env [f, g] 1).1 0).1
        = [fChecked, gInvalid] :=
  checkRedeclaration_siblings ⟨fun _ _ => true, fun _ _ => (true, false), fun _ _ => true⟩
    0 1 5 10 20 0 (.base 1) (.base 2) (by decide) (by decide)
    rfl rfl rfl rfl rfl rfl

/-! ### Evaluator helper lemmas -/

theorem storeCache_stack (p : EvalProgram) (r v : Nat) (st : EvalState) :
    (storeCache p r v st).stack = st.stack := by
  unfold storeCache; cases p.cacheKind r <;> rfl

theorem storeCache_log (p : EvalProgram) (r v : Nat) (st : EvalState) :
    (storeCache p r v st).log = st.log := by
  unfold storeCache; cases p.cacheKind r <;> rfl

theorem storeCache_stats (p : EvalProgram) (r v : Nat) (st : EvalState) :
    (storeCache p r v st).stats = st.stats := by
  unfold storeCache; cases p.cacheKind r <;> rfl

theorem cachedValue_of_empty (p : EvalProgram) (st : EvalState) (r : Nat)
    (hc : st.cache = []) (hs : st.sideTable = []) :
    cachedValue p st r = none := by
  unfold cachedValue; cases p.cacheKind r <;> simp [hc, hs, lookupTable]

theorem countExec_append (l₁ l₂ : List EvEvent) (r : Nat) :
    countExec (l₁ ++ l₂) r = countExec l₁ r + countExec l₂ r := by
  simp [countExec]

theorem countExec_cycleEvents (r r' : Nat) (s : List Nat) :
    countExec (cycleEvents r' s) r = 0 := by
  unfold cycleEvents countExec
  simp only [List.filter, List.length]
  have : ∀ l : List Nat,
      (l.map EvEvent.notedCycleStep).filter (fun e => e = .executed r) = [] := by
    intro l
    induction l with
    | nil => rfl
    | cons x xs ih => simp [List.filter, ih]
  simp [this]

theorem countExecKind_append (p : EvalProgram) (l₁ l₂ : List EvEvent) (k : Nat) :
    countExecKind p (l₁ ++ l₂) k = countExecKind p l₁ k + countExecKind p l₂ k := by
  simp [countExecKind]

theorem countExecKind_cycleEvents (p : EvalProgram) (r' : Nat) (s : List Nat)
    (k : Nat) :
    countExecKind p (cycleEvents r' s) k = 0 := by
  unfold cycleEvents countExecKind
  simp only [List.filter, List.length]
  have : ∀ l : List Nat,
      (l.map EvEvent.notedCycleStep).filter (fun e =>
        match e with
        | .executed r => p.kindName r = k
        | _ => false) = [] := by
    intro l
    induction l with
    | nil => rfl
    | cons x xs ih => simp [List.filter, ih]
  simp [this]

/-- Stack balance of `evalDeps`, given it for `evaluate` at the same fuel. -/
theorem evalDeps_stack (p : EvalProgram) (fuel : Nat)
    (IH : ∀ st r, ((evaluate p fuel st r).2).stack = st.stack) :
    ∀ rs st, ((evalDeps p fuel st rs).2).stack = st.stack := by
  intro rs
  induction rs with
  | nil => intro st; rw [evalDeps.eq_1]
  | cons r rest ih =>
    intro st
    rw [evalDeps.eq_2]
    rcases h : evaluate p fuel st r with ⟨res, st'⟩
    have hst' : st'.stack = st.stack := by
      have := IH st r; rw [h] at this; exact this
    cases res with
    | error e => simpa using hst'
    | ok v =>
      rcases h2 : evalDeps p fuel st' rest with ⟨res2, st''⟩
      have hst'' : st''.stack = st'.stack := by
        have := ih st'; rw [h2] at this; exact this
      cases res2 with
      | error e => simp [h2, hst'', hst']
      | ok vs => simp [h2, hst'', hst']

/-- Stack balance: `evaluate` restores the active stack it started from. -/
theorem evaluate_stack (p : EvalProgram) :
    ∀ fuel st r, ((evaluate p fuel st r).2).stack = st.stack := by
  intro fuel
  induction fuel with
  | zero =>
    intro st r
    rw [evaluate.eq_1]
    cases hc : cachedValue p st r with
    | some v => rfl
    | none =>
      by_cases hs : r ∈ st.stack
      · simp only [hs, if_true]
        cases p.breakCycleVal r <;> rfl
      · simp only [hs, if_false]
  | succ f ih =>
    intro st r
    rw [evaluate.eq_2]
    cases hc : cachedValue p st r with
    | some v => rfl
    | none =>
      by_cases hs : r ∈ st.stack
      · simp only [hs, if_true]
        cases p.breakCycleVal r <;> rfl
      · simp only [hs, if_false]
        rcases h2 : evalDeps p f
            { st with
              stack := r :: st.stack
              stats := fun k => if k = p.kindName r then st.stats k + 1 else st.stats k
              log := st.log ++ [.executed r] } (p.deps r) with ⟨res2, st2⟩
        have hst2 : st2.stack = r :: st.stack := by
          have := evalDeps_stack p f ih (p.deps r)
            { st with
              stack := r :: st.stack
              stats := fun k => if k = p.kindName r then st.stats k + 1 else st.stats k
              log := st.log ++ [.executed r] }
          rw [h2] at this
          exact this
        cases res2 with
        | error e => simp [h2, hst2]
        | ok vs => simp [h2, storeCache_stack, hst2]

/-- Helper: while `r` is on the active stack, `evalDeps` never adds an
execution of `r` (given the same for `evaluate` at equal fuel). -/
theorem evalDeps_noExec (p : EvalProgram) (fuel : Nat) (r : Nat)
    (IHs : ∀ st r', ((evaluate p fuel st r').2).stack = st.stack)
    (IH : ∀ st r', r ∈ st.stack →
      countExec ((evaluate p fuel st r').2).log r = countExec st.log r) :
    ∀ rs st, r ∈ st.stack →
      countExec ((evalDeps p fuel st rs).2).log r = countExec st.log r := by
  intro rs
  induction rs with
  | nil => intro st _; rw [evalDeps.eq_1]
  | cons r' rest ih =>
    intro st hmem
    rw [evalDeps.eq_2]
    rcases h : evaluate p fuel st r' with ⟨res, st'⟩
    have hstk : st'.stack = st.stack := by
      have := IHs st r'; rw [h] at this; exact this
    have hlog : countExec st'.log r = countExec st.log r := by
      have := IH st r' hmem; rw [h] at this; exact this
    have hmem' : r ∈ st'.stack := by rw [hstk]; exact hmem
    cases res with
    | error e => simpa using hlog
    | ok v =>
      rcases h2 : evalDeps p fuel st' rest with ⟨res2, st''⟩
      have hlog2 : countExec st''.log r = countExec st'.log r := by
        have := ih st' hmem'; rw [h2] at this; exact this
      cases res2 with
      | error e => simp [h2, hlog2, hlog]
      | ok vs => simp [h2, hlog2, hlog]

/-- Helper: while `r` is on the active stack, `evaluate` of any request never
adds an execution of `r` — re-entries of `r` take the cycle branch. -/
theorem evaluate_noExec (p : EvalProgram) (r : Nat) :
    ∀ fuel st r', r ∈ st.stack →
      countExec ((evaluate p fuel st r').2).log r = countExec st.log r := by
  intro fuel
  induction fuel with
  | zero =>
    intro st r' hmem
    rw [evaluate.eq_1]
    cases hc : cachedValue p st r' with
    | some v => rfl
    | none =>
      by_cases hs : r' ∈ st.stack
      · simp only [hs, if_true]
        cases p.breakCycleVal r' <;>
          simp [countExec_append, countExec_cycleEvents]
      · simp only [hs, if_false]
  | succ f ih =>
    intro st r' hmem
    rw [evaluate.eq_2]
    cases hc : cachedValue p st r' with
    | some v => rfl
    | none =>
      by_cases hs : r' ∈ st.stack
      · simp only [hs, if_true]
        cases p.breakCycleVal r' <;>
          simp [countExec_append, countExec_cycleEvents]
      · simp only [hs, if_false]
        have hne : r' ≠ r := fun he => hs (he ▸ hmem)
        rcases h2 : evalDeps p f
            { st with
              stack := r' :: st.stack
              stats := fun k => if k = p.kindName r' then st.stats k + 1 else st.stats k
              log := st.log ++ [.executed r'] } (p.deps r') with ⟨res2, st2⟩
        have hlog2 : countExec st2.log r
            = countExec (st.log ++ [EvEvent.executed r']) r := by
          have := evalDeps_noExec p f r (evaluate_stack p f) (ih) (p.deps r')
            { st with
              stack := r' :: st.stack
              stats := fun k => if k = p.kindName r' then st.stats k + 1 else st.stats k
              log := st.log ++ [.executed r'] }
            (List.mem_cons_of_mem r' hmem)
          rw [h2] at this
          exact this
        have hsingle : countExec (st.log ++ [EvEvent.executed r']) r
            = countExec st.log r := by
          simp [countExec_append, countExec, List.filter, hne]
        cases res2 with
        | error e => simp [h2, hlog2, hsingle]
        | ok vs => simp [h2, storeCache_log, hlog2, hsingle]

/-- Helper: `evalDeps` preserves the invariant that the statistics table
counts exactly the executions in the log (given the same for `evaluate` at
equal fuel). -/
theorem evalDeps_stats (p : EvalProgram) (fuel : Nat)
    (IH : ∀ st r, (∀ k, st.stats k = countExecKind p st.log k) →
      ∀ k, ((evaluate p fuel st r).2).stats k
        = countExecKind p ((evaluate p fuel st r).2).log k) :
    ∀ rs st, (∀ k, st.stats k = countExecKind p st.log k) →
      ∀ k, ((evalDeps p fuel st rs).2).stats k
        = countExecKind p ((evalDeps p fuel st rs).2).log k := by
  intro rs
  induction rs with
  | nil => intro st hst k; rw [evalDeps.eq_1]; exact hst k
  | cons r' rest ih =>
    intro st hst k
    rw [evalDeps.eq_2]
    rcases h : evaluate p fuel st r' with ⟨res, st'⟩
    have hst' : ∀ k, st'.stats k = countExecKind p st'.log k := by
      intro k'
      have := IH st r' hst k'
      rw [h] at this
      exact this
    cases res with
    | error e => simpa using hst' k
    | ok v =>
      rcases h2 : evalDeps p fuel st' rest with ⟨res2, st''⟩
      have hst'' : ∀ k, st''.stats k = countExecKind p st''.log k := by
        intro k'
        have := ih st' hst' k'
        rw [h2] at this
        exact this
      cases res2 with
      | error e => simp [h2]; exact hst'' k
      | ok vs => simp [h2]; exact hst'' k

/-- Helper: `evaluate` preserves the statistics invariant — the counter table
keyed by request kind counts exactly the executions recorded in the log (one
increment per execution, none on cache hits or cycle events). -/
theorem evaluate_stats (p : EvalProgram) :
    ∀ fuel st r, (∀ k, st.stats k = countExecKind p st.log k) →
      ∀ k, ((evaluate p fuel st r).2).stats k
        = countExecKind p ((evaluate p fuel st r).2).log k := by
  intro fuel
  induction fuel with
  | zero =>
    intro st r hst k
    rw [evaluate.eq_1]
    cases hc : cachedValue p st r with
    | some v => exact hst k
    | none =>
      by_cases hs : r ∈ st.stack
      · simp only [hs, if_true]
        cases p.breakCycleVal r <;>
          simp [countExecKind_append, countExecKind_cycleEvents, hst k]
      · simp only [hs, if_false]
        exact hst k
  | succ f ih =>
    intro st r hst k
    rw [evaluate.eq_2]
    cases hc : cachedValue p st r with
    | some v => exact hst k
    | none =>
      by_cases hs : r ∈ st.stack
      · simp only [hs, if_true]
        cases p.breakCycleVal r <;>
          simp [countExecKind_append, countExecKind_cycleEvents, hst k]
      · simp only [hs, if_false]
        have hst1 : ∀ k,
            (if k = p.kindName r then st.stats k + 1 else st.stats k)
              = countExecKind p (st.log ++ [EvEvent.executed r]) k := by
          intro k'
          rw [countExecKind_append]
          by_cases hk : k' = p.kindName r
          · simp [hk, hst (p.kindName r), countExecKind, List.filter]
          · have hk' : ¬ (p.kindName r = k') := fun he => hk he.symm
            simp [hk, hst k', countExecKind, List.filter, hk']
        rcases h2 : evalDeps p f
            { st with
              stack := r :: st.stack
              stats := fun k => if k = p.kindName r then st.stats k + 1 else st.stats k
              log := st.log ++ [.executed r] } (p.deps r) with ⟨res2, st2⟩
        have hst2 : ∀ k, st2.stats k = countExecKind p st2.log k := by
          intro k'
          have := evalDeps_stats p f ih (p.deps r)
            { st with
              stack := r :: st.stack
              stats := fun k => if k = p.kindName r then st.stats k + 1 else st.stats k
              log := st.log ++ [.executed r] }
            (fun k'' => hst1 k'') k'
          rw [h2] at this
          exact this
        cases res2 with
        | error e => simp [h2]; exact hst2 k
        | ok vs => simp [h2, storeCache_stats, storeCache_log]; exact hst2 k

/-- Helper: storing a result for `r` under a caching policy makes the cached
value visible to the next lookup. -/
theorem cachedValue_storeCache_self (p : EvalProgram) (r v : Nat) (st : EvalState)
    (hk : p.cacheKind r = .cached ∨ p.cacheKind r = .separatelyCached) :
    cachedValue p (storeCache p r v st) r = some v := by
  rcases hk with h | h <;> simp [cachedValue, storeCache, h, lookupTable]

/-- Helper: a cache hit returns immediately with the evaluator state entirely
unchanged — no re-execution, no statistics count, regardless of fuel. -/
theorem evaluate_cache_hit (p : EvalProgram) (fuel r v : Nat) (st : EvalState)
    (h : cachedValue p st r = some v) :
    evaluate p fuel st r = (.ok v, st) := by
  cases fuel with
  | zero => rw [evaluate.eq_1, h]
  | succ f => rw [evaluate.eq_2, h]

/-- The evaluator state right after pushing and counting the execution of the
first request evaluated on a fresh evaluator. -/
def evalStartState (p : EvalProgram) (r : Nat) : EvalState :=
  { cache := []
    sideTable := []
    stack := [r]
    stats := fun k => if k = p.kindName r then 1 else 0
    log := [.executed r] }

/-- Helper: the first evaluation on a fresh evaluator is a cache miss with an
empty active stack, so it executes the request's body. -/
theorem evaluate_init_succ (p : EvalProgram) (f r : Nat) :
    evaluate p (f + 1) evalInit r =
      match evalDeps p f (evalStartState p r) (p.deps r) with
      | (.error e, st2) => (.error e, { st2 with stack := st2.stack.tail })
      | (.ok vs, st2) =>
        (.ok (p.compute r vs),
          storeCache p r (p.compute r vs) { st2 with stack := st2.stack.tail }) := by
  rw [evaluate.eq_2, cachedValue_of_empty p evalInit r rfl rfl]
  simp [evalInit, evalStartState]

/-- C1: for a request whose cache kind is `Cached` or `SeparatelyCached`,
after a first successful `evaluate` on a fresh evaluator, a second `evaluate`
of a structurally-equal request returns the identical result with the
evaluator state unchanged (no re-execution, no statistics increment); across
both calls the request's body executed exactly once, and the statistics
counter for each request kind equals the number of executions of that kind
(incremented per execution, never on a cache hit). -/
theorem evaluator_cache_correctness (p : EvalProgram) (fuel fuel' r v k : Nat)
    (hk : p.cacheKind r = .cached ∨ p.cacheKind r = .separatelyCached)
    (h1 : (evaluate p fuel evalInit r).1 = .ok v) :
    evaluate p fuel' ((evaluate p fuel evalInit r).2) r
      = (.ok v, (evaluate p fuel evalInit r).2)
    ∧ countExec ((evaluate p fuel evalInit r).2).log r = 1
    ∧ ((evaluate p fuel evalInit r).2).stats k
      = countExecKind p ((evaluate p fuel evalInit r).2).log k := by
  have hstats := evaluate_stats p fuel evalInit r (fun _ => rfl) k
  rcases hE : evaluate p fuel evalInit r with ⟨res1, st1⟩
  rw [hE] at h1 hstats
  simp only at h1 hstats
  subst h1
  cases fuel with
  | zero =>
    rw [evaluate.eq_1, cachedValue_of_empty p evalInit r rfl rfl] at hE
    simp [evalInit] at hE
  | succ f =>
    rw [evaluate_init_succ] at hE
    rcases hD : evalDeps p f (evalStartState p r) (p.deps r) with ⟨resD, stD⟩
    rw [hD] at hE
    cases resD with
    | error e => simp at hE
    | ok vs =>
      simp only [Prod.mk.injEq, Except.ok.injEq] at hE
      obtain ⟨hv, hst1⟩ := hE
      have hcached : cachedValue p st1 r = some v := by
        rw [← hst1, hv]
        exact cachedValue_storeCache_self p r v _ hk
      have hlog : st1.log = stD.log := by
        rw [← hst1, storeCache_log]
      have hcount : countExec stD.log r = 1 := by
        have := evalDeps_noExec p f r (evaluate_stack p f)
          (evaluate_noExec p r f) (p.deps r) (evalStartState p r)
          (by simp [evalStartState])
        rw [hD] at this
        simp only at this
        rw [this]
        simp [evalStartState, countExec, List.filter]
      exact ⟨evaluate_cache_hit p fuel' r v st1 hcached,
        by rw [hlog]; exact hcount, hstats⟩

/-- C1 witness: the theorem at a one-request program (request 0, `Cached`,
no dependencies, result 42) evaluated with fuel 1, then re-evaluated with
fuel 1. -/
theorem evaluator_cache_correctness_witness :
    ((⟨id, fun _ => .cached, fun _ => [], fun _ _ => 42, fun _ => none⟩ :
        EvalProgram).cacheKind 0 = .cached
      ∨ (⟨id, fun _ => .cached, fun _ => [], fun _ _ => 42, fun _ => none⟩ :
        EvalProgram).cacheKind 0 = .separatelyCached)
    ∧ (evaluate ⟨id, fun _ => .cached, fun _ => [], fun _ _ => 42, fun _ => none⟩
        1 evalInit 0).1 = .ok 42
    ∧ (evaluate ⟨id, fun _ => .cached, fun _ => [], fun _ _ => 42, fun _ => none⟩ 1
        ((evaluate ⟨id, fun _ => .cached, fun _ => [], fun _ _ => 42, fun _ => none⟩
          1 evalInit 0).2) 0
      = (.ok 42,
        (evaluate ⟨id, fun _ => .cached, fun _ => [], fun _ _ => 42, fun _ => none⟩
          1 evalInit 0).2)
    ∧ countExec ((evaluate
        ⟨id, fun _ => .cached, fun _ => [], fun _ _ => 42, fun _ => none⟩
        1 evalInit 0).2).log 0 = 1
    ∧ ((evaluate ⟨id, fun _ => .cached, fun _ => [], fun _ _ => 42, fun _ => none⟩
        1 evalInit 0).2).stats 0
      = countExecKind ⟨id, fun _ => .cached, fun _ => [], fun _ _ => 42, fun _ => none⟩
        ((evaluate ⟨id, fun _ => .cached, fun _ => [], fun _ _ => 42, fun _ => none⟩
          1 evalInit 0).2).log 0) := by
  have hrun : (evaluate
      ⟨id, fun _ => .cached, fun _ => [], fun _ _ => 42, fun _ => none⟩
      1 evalInit 0).1 = .ok 42 := by
    rw [show (1 : Nat) = 0 + 1 from rfl, evaluate_init_succ]
    rw [evalDeps.eq_1]
  exact ⟨Or.inl rfl, hrun,
    evaluator_cache_correctness _ 1 1 0 42 0 (Or.inl rfl) hrun⟩

/-- The `diagnoseCycle` events of an evaluator log. -/
def diagEvents (log : List EvEvent) : List EvEvent :=
  log.filter fun e =>
    match e with
    | .diagnosedCycle _ => true
    | _ => false

/-- The `noteCycleStep` events of an evaluator log. -/
def noteEvents (log : List EvEvent) : List EvEvent :=
  log.filter fun e =>
    match e with
    | .notedCycleStep _ => true
    | _ => false

/-- The evaluator state with requests `a` then `b` pushed and counted, on a
fresh evaluator. -/
def evalStartState2 (p : EvalProgram) (a b : Nat) : EvalState :=
  { cache := []
    sideTable := []
    stack := [b, a]
    stats := fun k => if k = p.kindName b
      then (if k = p.kindName a then 1 else 0) + 1
      else (if k = p.kindName a then 1 else 0)
    log := [.executed a, .executed b] }

/-- The evaluator state after the cycle through `a` and `b` has been
diagnosed. -/
def evalCycledState (p : EvalProgram) (a b : Nat) : EvalState :=
  { cache := []
    sideTable := []
    stack := [b, a]
    stats := fun k => if k = p.kindName b
      then (if k = p.kindName a then 1 else 0) + 1
      else (if k = p.kindName a then 1 else 0)
    log := [.executed a, .executed b, .diagnosedCycle a, .notedCycleStep b] }

/-- C2: for two mutually dependent requests A → B → A evaluated on a fresh
evaluator, the evaluator detects the re-entry via its active-request stack:
`diagnoseCycle` fires exactly once, on the request A that closes the minimal
cycle `[A, B]`, `noteCycleStep` fires exactly once, on the single frame B
strictly between the two occurrences of A, and the re-entered request yields
its `breakCycle()` value when it provides one (so the overall evaluation
succeeds) and otherwise propagates a distinguished cycle error. -/
theorem evaluator_cycle_detection (p : EvalProgram) (a b v : Nat)
    (hab : a ≠ b) (hda : p.deps a = [b]) (hdb : p.deps b = [a]) :
    diagEvents ((evaluate p 2 evalInit a).2).log = [.diagnosedCycle a]
    ∧ noteEvents ((evaluate p 2 evalInit a).2).log = [.notedCycleStep b]
    ∧ (p.breakCycleVal a = none → (evaluate p 2 evalInit a).1 = .error .cycle)
    ∧ (p.breakCycleVal a = some v →
        (evaluate p 2 evalInit a).1 = .ok (p.compute a [p.compute b [v]])) := by
  have hba : ¬ (b = a) := fun h => hab h.symm
  have hbmem : ¬ (b ∈ (evalStartState p a).stack) := by simp [evalStartState, hba]
  have hamem : a ∈ (evalStartState2 p a b).stack := by simp [evalStartState2]
  have hcyc : cycleEvents a (evalStartState2 p a b).stack
      = [.diagnosedCycle a, .notedCycleStep b] := by
    simp [cycleEvents, evalStartState2, List.takeWhile_cons, hba]
  -- the innermost re-entry of `a`: the cycle branch
  have hEa : evaluate p 0 (evalStartState2 p a b) a
      = match p.breakCycleVal a with
        | some w => (.ok w, evalCycledState p a b)
        | none => (.error .cycle, evalCycledState p a b) := by
    rw [evaluate.eq_1, cachedValue_of_empty p (evalStartState2 p a b) a rfl rfl,
      if_pos hamem, hcyc]
    rcases hbc : p.breakCycleVal a with _ | w <;> rfl
  -- the dependency list of `b`
  have hDa : evalDeps p 0 (evalStartState2 p a b) [a]
      = match p.breakCycleVal a with
        | some w => (.ok [w], evalCycledState p a b)
        | none => (.error .cycle, evalCycledState p a b) := by
    rw [evalDeps.eq_2, hEa]
    rcases hbc : p.breakCycleVal a with _ | w <;>
      first
      | rfl
      | (simp only [evalDeps.eq_1]; try rfl)
  -- the evaluation of `b` from inside `a`
  have hEb : evaluate p 1 (evalStartState p a) b
      = match p.breakCycleVal a with
        | some w =>
          (.ok (p.compute b [w]),
            storeCache p b (p.compute b [w])
              { evalCycledState p a b with stack := [a] })
        | none => (.error .cycle, { evalCycledState p a b with stack := [a] }) := by
    rw [show (1 : Nat) = Nat.succ 0 from rfl, evaluate.eq_2,
      cachedValue_of_empty p (evalStartState p a) b rfl rfl, if_neg hbmem, hdb]
    have hrec : ({ evalStartState p a with
        stack := b :: (evalStartState p a).stack
        stats := fun k => if k = p.kindName b
          then (evalStartState p a).stats k + 1
          else (evalStartState p a).stats k
        log := (evalStartState p a).log ++ [.executed b] } : EvalState)
        = evalStartState2 p a b := rfl
    rw [hrec]
    simp only [hDa]
    rcases hbc : p.breakCycleVal a with _ | w <;> rfl
  -- the dependency list of `a`
  have hDb : evalDeps p 1 (evalStartState p a) [b]
      = match p.breakCycleVal a with
        | some w =>
          (.ok [p.compute b [w]],
            storeCache p b (p.compute b [w])
              { evalCycledState p a b with stack := [a] })
        | none => (.error .cycle, { evalCycledState p a b with stack := [a] }) := by
    rw [evalDeps.eq_2, hEb]
    rcases hbc : p.breakCycleVal a with _ | w <;>
      first
      | rfl
      | (simp only [evalDeps.eq_1]; try rfl)
  -- the whole evaluation
  have e2 : evaluate p 2 evalInit a
      = match p.breakCycleVal a with
        | some w =>
          (.ok (p.compute a [p.compute b [w]]),
            storeCache p a (p.compute a [p.compute b [w]])
              { storeCache p b (p.compute b [w])
                  { evalCycledState p a b with stack := [a] } with
                stack := (storeCache p b (p.compute b [w])
                  { evalCycledState p a b with stack := [a] }).stack.tail })
        | none =>
          (.error .cycle, { evalCycledState p a b with stack := [] }) := by
    rw [show (2 : Nat) = 1 + 1 from rfl, evaluate_init_succ, hda, hDb]
    rcases hbc : p.breakCycleVal a with _ | w <;> rfl
  rw [e2]
  rcases hbc : p.breakCycleVal a with _ | w
  · exact ⟨rfl, rfl, fun _ => rfl, fun hv => by cases hv⟩
  · refine ⟨?_, ?_, ?_, ?_⟩
    · simp only [storeCache_log]
      rfl
    · simp only [storeCache_log]
      rfl
    · intro hn
      cases hn
    · intro hv
      cases hv
      rfl

/-- C2 witness: the theorem at two concrete mutually dependent requests 0 and
1 (neither providing a `breakCycle` value). -/
theorem evaluator_cycle_detection_witness :
    diagEvents ((evaluate
        ⟨id, fun _ => .uncached, fun r => if r = 0 then [1] else [0],
          fun _ _ => 7, fun _ => none⟩ 2 evalInit 0).2).log
      = [.diagnosedCycle 0]
    ∧ noteEvents ((evaluate
        ⟨id, fun _ => .uncached, fun r => if r = 0 then [1] else [0],
          fun _ _ => 7, fun _ => none⟩ 2 evalInit 0).2).log
      = [.notedCycleStep 1]
    ∧ ((⟨id, fun _ => .uncached, fun r => if r = 0 then [1] else [0],
          fun _ _ => 7, fun _ => none⟩ : EvalProgram).breakCycleVal 0 = none →
        (evaluate ⟨id, fun _ => .uncached, fun r => if r = 0 then [1] else [0],
          fun _ _ => 7, fun _ => none⟩ 2 evalInit 0).1 = .error .cycle)
    ∧ ((⟨id, fun _ => .uncached, fun r => if r = 0 then [1] else [0],
          fun _ _ => 7, fun _ => none⟩ : EvalProgram).breakCycleVal 0 = some 9 →
        (evaluate ⟨id, fun _ => .uncached, fun r => if r = 0 then [1] else [0],
          fun _ _ => 7, fun _ => none⟩ 2 evalInit 0).1
          = .ok ((⟨id, fun _ => .uncached, fun r => if r = 0 then [1] else [0],
              fun _ _ => 7, fun _ => none⟩ : EvalProgram).compute 0
            [(⟨id, fun _ => .uncached, fun r => if r = 0 then [1] else [0],
              fun _ _ => 7, fun _ => none⟩ : EvalProgram).compute 1 [9]])) :=
  evaluator_cycle_detection
    ⟨id, fun _ => .uncached, fun r => if r = 0 then [1] else [0],
      fun _ _ => 7, fun _ => none⟩ 0 1 9 (by decide) rfl rfl

/-- C6 witness: the theorem at a concrete fix and concrete root
expressions. -/
theorem fixDiagnose_closed_mapping_witness :
    diagVariant (fixDiagnose 0 (.addAddressOf ⟨MExpr.mk 0 [], []⟩) (MExpr.mk 0 []))
      = diagVariant (fixDiagnose 1 (.addAddressOf ⟨MExpr.mk 0 [], []⟩) (MExpr.mk 1 []))
    ∧ fixDiagnose 0 (.forceOptional (ForceOptionalFix.create 2 3 ⟨MExpr.mk 0 [], []⟩))
        (MExpr.mk 0 [])
      = .missingOptionalUnwrap (MExpr.mk 0 []) 2 3 ⟨MExpr.mk 0 [], []⟩ :=
  fixDiagnose_closed_mapping (.addAddressOf ⟨MExpr.mk 0 [], []⟩) 0 1
    (MExpr.mk 0 []) (MExpr.mk 1 []) 2 3 ⟨MExpr.mk 0 [], []⟩

/-- C10 witness: the theorem at concrete types, locator and root. -/
theorem forceOptional_create_two_locators_witness :
    (ForceOptionalFix.create 2 3 ⟨MExpr.mk 0 [], []⟩).getLocator
      = getConstraintLocator (simplifyLocatorToAnchor ⟨MExpr.mk 0 [], []⟩)
    ∧ (ForceOptionalFix.create 2 3 ⟨MExpr.mk 0 [], []⟩).fullLocator
      = ⟨MExpr.mk 0 [], []⟩
    ∧ fixDiagnose 0 (.forceOptional (ForceOptionalFix.create 2 3 ⟨MExpr.mk 0 [], []⟩))
        (MExpr.mk 0 [])
      = .missingOptionalUnwrap (MExpr.mk 0 []) 2 3 ⟨MExpr.mk 0 [], []⟩
    ∧ (ForceOptionalFix.create 2 3
        ⟨MExpr.mk 0 [MExpr.mk 1 []], [0]⟩).getLocator
      ≠ ⟨MExpr.mk 0 [MExpr.mk 1 []], [0]⟩ :=
  forceOptional_create_two_locators 2 3 0 ⟨MExpr.mk 0 [], []⟩ (MExpr.mk 0 [])


end Swift
